import Mathlib

/-!
Character-normalisation matcher (`classify/normmatch.cpp`).

A shallow embedding of `ComputeNormMatch`, `NormEvidenceOf` and
`ReadNormProtos`.

Conventions of the embedding.

* `FLOAT32` is idealised as an exact linearly ordered field `α`; the
  definitions are polymorphic in `α`, so they evaluate over `ℚ` and are
  reasoned about over `ℝ` where the general power is needed.  Rounding,
  overflow to infinity and NaN are outside this embedding, and a division by
  zero gives 0 in it, where the C code gives an infinity or a NaN.
* Where rounding decides (whether a bound is reached), the matcher is
  embedded a second time, in `NormMatch.Ieee`, with the binary32 and binary64
  arithmetic of the C types; the values of the program at concrete inputs are
  evaluated there.
* Globals (`NormProtos`, the two control knobs) and what comes from outside
  `normmatch.cpp` (the constants `MAX_FLOAT32`, `NO_CLASS` and
  `MAX_CLASS_ID`, the signedness of `char`, libm `pow`, the readers of the
  cluster tools) are explicit arguments.
* A `FILE *` is the list of the characters that are still unread.
* An array access outside `Protos[0 .. MAX_CLASS_ID]` is undefined behaviour
  in C; the model reports it as `Fault.OutOfBounds`.
-/

namespace NormMatch

/-! ## Data model -/

/-- The named channels of a character-normalisation feature (`normfeat.h`);
they index `ParamOf (Feature, ·)`, `Proto->Mean[·]` and
`Proto->Weight.Elliptical[·]`. -/
inductive NormParam where
  | CharNormY
  | CharNormLength
  | CharNormRx
  | CharNormRy
  deriving DecidableEq, Repr

open NormParam

/-- A feature: `ParamOf (Feature, i)` is `Feature i`. -/
abbrev FEATURE (α : Type) := NormParam → α

/-- The part of `PROTOTYPE` that the matcher reads: `Proto->Mean[i]` and
`Proto->Weight.Elliptical[i]`. -/
structure PROTOTYPE (α : Type) where
  Mean : NormParam → α
  Weight : NormParam → α

/-- Modelled from the spec: `PARAM_DESC` is declared in the cluster headers,
which are not part of `normmatch.cpp`; per the data model a descriptor
carries a circularity flag and a valid range. -/
structure PARAM_DESC (α : Type) where
  Circular : Bool
  Min : α
  Max : α

/-- The table `NORM_PROTOS`: `Protos` is the array
`LIST Protos[MAX_CLASS_ID + 1]`, one prototype list per class. -/
structure NORM_PROTOS (α : Type) where
  NumParams : Int
  ParamDesc : List (PARAM_DESC α)
  Protos : List (List (PROTOTYPE α))

/-- What the matcher takes from outside `normmatch.cpp`: two constants of
the headers and libm. -/
structure Host (α : Type) where
  /-- The constant `MAX_FLOAT32`. -/
  MAX_FLOAT32 : α
  /-- The constant `NO_CLASS`. -/
  NO_CLASS : Int
  /-- The libm function `pow`. -/
  pow : α → α → α

/-- What the loader takes from outside `normmatch.cpp`. -/
structure Platform where
  /-- The constant `MAX_CLASS_ID`. -/
  MAX_CLASS_ID : Nat
  /-- Whether plain `char` is a signed type. -/
  charSigned : Bool

/-- The control knobs made by `make_float_var`: `NormAdjMidpoint`
(default 32.0) and `NormAdjCurl` (default 2.0). -/
structure Knobs (α : Type) where
  NormAdjMidpoint : α
  NormAdjCurl : α

/-- How a run can go wrong. -/
inductive Fault where
  /-- A reader of the cluster tools raised its error (`DoError`). -/
  | DoError
  /-- An array was indexed outside its bounds (undefined behaviour in C). -/
  | OutOfBounds
  /-- The scanning loop was cut off by its iteration bound. -/
  | Fuel
  deriving DecidableEq, Repr

/-- One line of the diagnostic dump that `DebugMatch` turns on. -/
inductive DebugLine (α : Type) where
  /-- The dump of the feature (`WriteFeature`). -/
  | FeatureDump (Feature : FEATURE α)
  /-- The lines for one prototype (`WriteNFloats`, `PrintNormMatch`). -/
  | ProtoDump (ProtoId : Nat) (Proto : PROTOTYPE α)

/-- The array read `NormProtos->Protos[ClassId]`. -/
def NORM_PROTOS.ProtosAt {α : Type} (NormProtos : NORM_PROTOS α) (ClassId : Int) :
    Except Fault (List (PROTOTYPE α)) :=
  if 0 ≤ ClassId then
    match NormProtos.Protos[ClassId.toNat]? with
    | some Protos => Except.ok Protos
    | none => Except.error Fault.OutOfBounds
  else Except.error Fault.OutOfBounds

/-! ## The matcher -/

section Matcher

variable {α : Type} [LinearOrderedField α]

/-- The function `NormEvidenceOf`. -/
def NormEvidenceOf (H : Host α) (K : Knobs α) (NormAdj : α) : α :=
  let NormAdj := NormAdj / K.NormAdjMidpoint
  let NormAdj :=
    if K.NormAdjCurl = 3 then NormAdj * NormAdj * NormAdj
    else if K.NormAdjCurl = 2 then NormAdj * NormAdj
    else H.pow NormAdj K.NormAdjCurl
  1 / (1 + NormAdj)

/-- The value `Match` that one pass of the loop body computes for `Proto`. -/
def ProtoMatch (Feature : FEATURE α) (Proto : PROTOTYPE α) : α :=
  let Delta := Feature CharNormY - Proto.Mean CharNormY
  let Match := Delta * Delta * Proto.Weight CharNormY
  let Delta := Feature CharNormRx - Proto.Mean CharNormRx
  Match + Delta * Delta * Proto.Weight CharNormRx

/-- The loop `iterate (Protos) { ... }` of `ComputeNormMatch`, with its
state `BestMatch`, `ProtoId` and the diagnostic output written so far. -/
def iterateProtos (Feature : FEATURE α) (DebugMatch : Bool) :
    List (PROTOTYPE α) → α → Nat → List (DebugLine α) → α × List (DebugLine α)
  | [], BestMatch, _, Out => (BestMatch, Out)
  | Proto :: Protos, BestMatch, ProtoId, Out =>
    let Match := ProtoMatch Feature Proto
    let BestMatch := if Match < BestMatch then Match else BestMatch
    let Out := if DebugMatch then Out ++ [DebugLine.ProtoDump ProtoId Proto] else Out
    iterateProtos Feature DebugMatch Protos BestMatch (ProtoId + 1) Out

/-- The function `ComputeNormMatch`: the rating that is returned, together
with the diagnostic output. -/
def ComputeNormMatch (H : Host α) (K : Knobs α) (NormProtos : NORM_PROTOS α)
    (ClassId : Int) (Feature : FEATURE α) (DebugMatch : Bool) :
    Except Fault (α × List (DebugLine α)) :=
  if ClassId = H.NO_CLASS then
    let Match := Feature CharNormLength * Feature CharNormLength * 500 +
      Feature CharNormRx * Feature CharNormRx * 8000 +
      Feature CharNormRy * Feature CharNormRy * 8000
    Except.ok (1 - NormEvidenceOf H K Match, [])
  else
    let BestMatch := H.MAX_FLOAT32
    match NormProtos.ProtosAt ClassId with
    | Except.error e => Except.error e
    | Except.ok Protos =>
      let Out := if DebugMatch then [DebugLine.FeatureDump Feature] else []
      let (BestMatch, Out) := iterateProtos Feature DebugMatch Protos BestMatch 0 Out
      Except.ok (1 - NormEvidenceOf H K BestMatch, Out)

end Matcher

/-! ## The loader -/

/-- Modelled from the spec: `push_last` belongs to the list package, which is
not part of `normmatch.cpp`; per the loader policy it places the new element
at the end of the list and returns the list. -/
def push_last {β : Type} (list : List β) (item : β) : List β :=
  list ++ [item]

/-- Modelled from the spec: `ReadSampleSize`, `ReadParamDesc` and
`ReadPrototype` are defined in the cluster tools, not in `normmatch.cpp`.
Each is a function of the unread part of the file (and of `NumParams`): it
either raises its fatal error (`none`; per the error-handling design a bad
`NumParams`, a malformed descriptor or a truncated prototype record fails the
load) or yields its value together with the number of characters it has
consumed. -/
structure ClustTool (α : Type) where
  ReadSampleSize : List Char → Option (Int × Nat)
  ReadParamDesc : List Char → Int → Option (List (PARAM_DESC α) × Nat)
  ReadPrototype : List Char → Int → Option (PROTOTYPE α × Nat)

/-- The C library predicate `isspace` (in the C locale). -/
def isspace (c : Char) : Bool :=
  c.toNat = 32 || (9 ≤ c.toNat && c.toNat ≤ 13)

/-- The C library predicate `isdigit`. -/
def isdigit (c : Char) : Bool :=
  48 ≤ c.toNat && c.toNat ≤ 57

/-- Skipping of white space by a `scanf` directive. -/
def skipSpace : List Char → List Char
  | [] => []
  | c :: File => if isspace c then skipSpace File else c :: File

/-- The digits of a `%d` conversion: the value read so far is `acc`. -/
def scanDigits : List Char → Nat → Nat × List Char
  | [], acc => (acc, [])
  | c :: File, acc =>
    if isdigit c then scanDigits File (acc * 10 + (c.toNat - 48)) else (acc, c :: File)

/-- The conversion `%d`: optional white space, an optional sign and at least
one digit; `none` is a matching or input failure.  The value is the
mathematical one (a number outside the range of `int` is undefined in C). -/
def scanInt (File : List Char) : Option (Int × List Char) :=
  match skipSpace File with
  | [] => none
  | c :: File1 =>
    if isdigit c then
      let r := scanDigits (c :: File1) 0
      some ((r.1 : Int), r.2)
    else if c = '-' ∨ c = '+' then
      match File1 with
      | [] => none
      | d :: _ =>
        if isdigit d then
          let r := scanDigits File1 0
          some (if c = '-' then -(r.1 : Int) else (r.1 : Int), r.2)
        else none
    else none

/-- What `fscanf (File, "%1s %d", ClassId, &NumProtos)` does. -/
inductive Scanned where
  /-- End of input before the class character: `fscanf` returns `EOF`. -/
  | eof
  /-- The class character was read, the count was not: `fscanf` returns 1. -/
  | one (ClassId : Char)
  /-- Both items were read: `fscanf` returns 2; `File` is what is unread. -/
  | two (ClassId : Char) (NumProtos : Int) (File : List Char)
  deriving DecidableEq

/-- The value that `fscanf` returns. -/
def Scanned.ret : Scanned → Int
  | Scanned.eof => -1
  | Scanned.one _ => 1
  | Scanned.two _ _ _ => 2

/-- The call `fscanf (File, "%1s %d", ClassId, &NumProtos)`: `%1s` skips
white space and stores one character that is not white space. -/
def fscanf_1s_d (File : List Char) : Scanned :=
  match skipSpace File with
  | [] => Scanned.eof
  | c :: File1 =>
    match scanInt File1 with
    | none => Scanned.one c
    | some (NumProtos, File2) => Scanned.two c NumProtos File2

/-- The value of `ClassId[0]`, a plain `char`, as an array index. -/
def charIndex (P : Platform) (c : Char) : Int :=
  if P.charSigned ∧ 128 ≤ c.toNat then (c.toNat : Int) - 256 else (c.toNat : Int)

/-- The loop `for (i = 0; i < NumProtos; i++) Protos = push_last (Protos,
ReadPrototype (File, NumParams))`; the first argument counts the passes that
are left. -/
def ReadProtosLoop {α : Type} (R : ClustTool α) (NumParams : Int) :
    Nat → List (PROTOTYPE α) → List Char → Except Fault (List (PROTOTYPE α) × List Char)
  | 0, Protos, File => Except.ok (Protos, File)
  | n + 1, Protos, File =>
    match R.ReadPrototype File NumParams with
    | none => Except.error Fault.DoError
    | some (Proto, k) => ReadProtosLoop R NumParams n (push_last Protos Proto) (File.drop k)

/-- The loop `while (fscanf (File, "%1s %d", ClassId, &NumProtos) == 2)` of
`ReadNormProtos`; the first argument bounds the number of passes. -/
def ReadBlocks {α : Type} (P : Platform) (R : ClustTool α) :
    Nat → NORM_PROTOS α → List Char → Except Fault (NORM_PROTOS α)
  | 0, _, _ => Except.error Fault.Fuel
  | fuel + 1, NormProtos, File =>
    match fscanf_1s_d File with
    | Scanned.two ClassId NumProtos File1 =>
      match NormProtos.ProtosAt (charIndex P ClassId) with
      | Except.error e => Except.error e
      | Except.ok Protos =>
        match ReadProtosLoop R NormProtos.NumParams NumProtos.toNat Protos File1 with
        | Except.error e => Except.error e
        | Except.ok (Protos, File2) =>
          ReadBlocks P R fuel
            { NormProtos with
              Protos := NormProtos.Protos.set (charIndex P ClassId).toNat Protos }
            File2
    | _ => Except.ok NormProtos

/-- The function `ReadNormProtos`.  Every pass of the scanning loop consumes
at least two characters, so the bound given to `ReadBlocks` is never
reached. -/
def ReadNormProtos {α : Type} (P : Platform) (R : ClustTool α) (File : List Char) :
    Except Fault (NORM_PROTOS α) :=
  let Protos : List (List (PROTOTYPE α)) := List.replicate (P.MAX_CLASS_ID + 1) []
  match R.ReadSampleSize File with
  | none => Except.error Fault.DoError
  | some (NumParams, k) =>
    let File := File.drop k
    match R.ReadParamDesc File NumParams with
    | none => Except.error Fault.DoError
    | some (ParamDesc, k) =>
      let File := File.drop k
      ReadBlocks P R (File.length + 1)
        { NumParams := NumParams, ParamDesc := ParamDesc, Protos := Protos } File

/-! ## Reference notions for the loader -/

/-- The `n` prototype records that start at `File`, in file order, and what
is unread after them. -/
def Records {α : Type} (R : ClustTool α) (NumParams : Int) :
    Nat → List Char → Option (List (PROTOTYPE α) × List Char)
  | 0, File => some ([], File)
  | n + 1, File =>
    match R.ReadPrototype File NumParams with
    | none => none
    | some (Proto, k) =>
      match Records R NumParams n (File.drop k) with
      | none => none
      | some (Protos, File1) => some (Proto :: Protos, File1)

/-- The relation `BlocksRead P R NumParams File Blocks File1`: starting at
`File` the source holds the well-formed blocks `Blocks` (each one the array
index of its class character and its prototype records), in file order, and
`File1` is what is unread after them. -/
inductive BlocksRead {α : Type} (P : Platform) (R : ClustTool α) (NumParams : Int) :
    List Char → List (Nat × List (PROTOTYPE α)) → List Char → Prop where
  | done (File : List Char) : BlocksRead P R NumParams File [] File
  | block {File File1 File2 File3 : List Char} {ClassId : Char} {NumProtos : Int}
      {Protos : List (PROTOTYPE α)} {Blocks : List (Nat × List (PROTOTYPE α))} :
      fscanf_1s_d File = Scanned.two ClassId NumProtos File1 →
      0 ≤ charIndex P ClassId → charIndex P ClassId ≤ P.MAX_CLASS_ID →
      Records R NumParams NumProtos.toNat File1 = some (Protos, File2) →
      BlocksRead P R NumParams File2 Blocks File3 →
      BlocksRead P R NumParams File
        (((charIndex P ClassId).toNat, Protos) :: Blocks) File3

/-- The prototypes that the blocks `Blocks` give to the class with array
index `i`: those of the blocks of that class, in file order. -/
def ProtosOfClass {α : Type} (i : Nat) : List (Nat × List (PROTOTYPE α)) → List (PROTOTYPE α)
  | [] => []
  | (j, Protos) :: Blocks =>
    if j = i then Protos ++ ProtosOfClass i Blocks else ProtosOfClass i Blocks

/-! ## Reference notions for the matcher -/

section MatcherReference

variable {α : Type} [LinearOrderedField α]

/-- The distance `d_p` of the nearest-prototype rule: the weighted squared
deviation of the feature from the prototype on the two distinguished
dimensions. -/
def ProtoDistance (Feature : FEATURE α) (p : PROTOTYPE α) : α :=
  (Feature CharNormY - p.Mean CharNormY) ^ 2 * p.Weight CharNormY +
    (Feature CharNormRx - p.Mean CharNormRx) ^ 2 * p.Weight CharNormRx

/-- The host of the reference build: `MAX_FLOAT32` is the largest finite
single-precision number and `NO_CLASS` is the identifier 0; `pow` is left
open. -/
def TessHost (pow : α → α → α) : Host α :=
  { MAX_FLOAT32 := 340282346638528859811704183484516925440
    NO_CLASS := 0
    pow := pow }

/-- The default control knobs: `NormAdjMidpoint` 32.0 and `NormAdjCurl` 2.0. -/
def DefaultKnobs : Knobs α :=
  { NormAdjMidpoint := 32, NormAdjCurl := 2 }

/-- A table whose only prototypes are `Protos`, stored for the class with
identifier `ClassId`, in an array of `MaxClassId + 1` lists. -/
def TableWith (MaxClassId ClassId : Nat) (Protos : List (PROTOTYPE α)) : NORM_PROTOS α :=
  { NumParams := 4
    ParamDesc := []
    Protos := (List.replicate (MaxClassId + 1) []).set ClassId Protos }

/-- A feature given by its four channels. -/
def FeatureOf (Y Length Rx Ry : α) : FEATURE α
  | CharNormY => Y
  | CharNormLength => Length
  | CharNormRx => Rx
  | CharNormRy => Ry

/-- A prototype with the given mean and weight on the two distinguished
dimensions (and mean 0, weight 1 on the others). -/
def ProtoOf (MeanY WeightY MeanRx WeightRx : α) : PROTOTYPE α :=
  { Mean := fun i => match i with
      | CharNormY => MeanY
      | CharNormRx => MeanRx
      | _ => 0
    Weight := fun i => match i with
      | CharNormY => WeightY
      | CharNormRx => WeightRx
      | _ => 1 }

end MatcherReference

/-- The platform of the reference build: class identifiers `0 .. 255`, and a
plain `char` that is signed. -/
def TessPlatform : Platform :=
  { MAX_CLASS_ID := 255, charSigned := true }

/-! ## A small instance of the cluster-tool readers -/

/-- The prototype of the small reader: means `y` and `x` on the two
distinguished dimensions, all weights 1. -/
def ToyProto (y x : Int) : PROTOTYPE ℚ :=
  { Mean := fun i => match i with
      | CharNormY => (y : ℚ)
      | CharNormRx => (x : ℚ)
      | _ => 0
    Weight := fun _ => 1 }

/-- The descriptors of the small reader: `n` letters, `c` for a circular and
`l` for a linear dimension, each with the range `0 .. 1`. -/
def ToyParamDescs : Nat → List Char → Option (List (PARAM_DESC ℚ) × List Char)
  | 0, File => some ([], File)
  | n + 1, File =>
    match skipSpace File with
    | [] => none
    | c :: File1 =>
      if c = 'c' ∨ c = 'l' then
        match ToyParamDescs n File1 with
        | none => none
        | some (Descs, File2) => some ({ Circular := c = 'c', Min := 0, Max := 1 } :: Descs, File2)
      else none

/-- A small instance of the cluster-tool readers: the sample size is a
positive `%d` number, a descriptor is a letter `c` or `l`, and a prototype
record is two `%d` numbers, the means on `Y` and on `Rx`. -/
def ToyClustTool : ClustTool ℚ :=
  { ReadSampleSize := fun File =>
      match scanInt File with
      | none => none
      | some (n, File1) => if 0 < n then some (n, File.length - File1.length) else none
    ReadParamDesc := fun File NumParams =>
      match ToyParamDescs NumParams.toNat File with
      | none => none
      | some (Descs, File1) => some (Descs, File.length - File1.length)
    ReadPrototype := fun File _ =>
      match scanInt File with
      | none => none
      | some (y, File1) =>
        match scanInt File1 with
        | none => none
        | some (x, File2) => some (ToyProto y x, File.length - File2.length) }

/-! ## Worked sources for the small reader -/

/-- A source for the small reader: two dimensions, then a block of class `a`
(character code 97), a block of class `b` (98) and a second block of `a`. -/
def SourceRepeated : List Char :=
  "2\ncl\na 1\n1 2\nb 1\n5 6\na 2\n7 8\n9 10\n".toList

/-- A source for the small reader: after a block of class `a`, a header with
the class character `b` and no number where the count should be. -/
def SourceBadCount : List Char :=
  "2\ncl\na 1\n1 2\nb x\n".toList

/-- A source for the small reader: after a block of class `a`, a block of
class `b` that announces two records and is cut off inside the second. -/
def SourceTruncated : List Char :=
  "2\ncl\na 1\n1 2\nb 2\n5 6\n7".toList

/-- The two descriptors `c` and `l` of these sources. -/
def ToyDescs : List (PARAM_DESC ℚ) :=
  [{ Circular := true, Min := 0, Max := 1 }, { Circular := false, Min := 0, Max := 1 }]

/-- A source for the small reader: one block whose class character is the
byte `0xE9`. -/
def SourceHighByte : List Char :=
  "2\ncl\n\xe9 1\n1 2\n".toList

/-! ## A second embedding of the matcher, with rounding

The definitions above compute in an exact field.  Where rounding decides, the
same code is read with the arithmetic of the C types: `FLOAT32` and the knobs
are IEEE-754 binary32 numbers, the constants `1.0`, `500.0`, `8000.0` and the
results of `pow` are binary64 numbers, every operation rounds to the nearest
number of its format (ties to even), without extended precision and without
fused operations.  The sign of a zero is not kept. -/

namespace Ieee

/-- A value of a binary floating-point format: the finite number
`m * 2 ^ e` (kept with `m` odd, and zero as `0 * 2 ^ 0`), an infinity or a
NaN. -/
inductive Flt where
  | fin (m : Int) (e : Int)
  | inf (negative : Bool)
  | nan
  deriving DecidableEq

/-- A binary format: the number of bits of the significand and the largest
exponent. -/
structure Format where
  prec : Nat
  emax : Int

/-- The format of `float` (`FLOAT32`). -/
def binary32 : Format := { prec := 24, emax := 127 }

/-- The format of `double`. -/
def binary64 : Format := { prec := 53, emax := 1023 }

/-- The number of binary digits of `n`, by halving at most `fuel` times. -/
def bitLengthAux : Nat → Nat → Nat
  | 0, _ => 0
  | fuel + 1, n => if n = 0 then 0 else bitLengthAux fuel (n / 2) + 1

/-- The number of binary digits of `n`. -/
def bitLength (n : Nat) : Nat := bitLengthAux n n

/-- The finite number `m * 2 ^ e` with the factors 2 moved from `m` to the
exponent, at most `fuel` of them. -/
def normalizeAux : Nat → Int → Int → Flt
  | 0, m, e => Flt.fin m e
  | fuel + 1, m, e =>
    if m = 0 then Flt.fin 0 0
    else if m % 2 = 0 then normalizeAux fuel (m / 2) (e + 1)
    else Flt.fin m e

/-- The finite number `m * 2 ^ e`. -/
def Flt.ofDyadic (m : Int) (e : Int) : Flt := normalizeAux m.natAbs m e

/-- The whole number `n` as a value. -/
def Flt.ofInt (n : Int) : Flt := Flt.ofDyadic n 0

/-- Rounding of the real number `n / d * 2 ^ e` (where `d > 0`) to a format: to
the nearest number of the format (subnormal numbers included), ties to even,
and to an infinity when the rounded magnitude exceeds the largest finite
number `(2 ^ prec - 1) * 2 ^ (emax - prec + 1)`. -/
def Format.round (F : Format) (n : Int) (d : Nat) (e : Int) : Flt :=
  if n = 0 then Flt.fin 0 0
  else
    let a := n.natAbs
    let E0 : Int := (bitLength a : Int) - (bitLength d : Int) + e
    -- `E` is the exponent of the binade: `2 ^ E ≤ a / d * 2 ^ e < 2 ^ (E + 1)`
    let E : Int := if d * 2 ^ (E0 - e).toNat ≤ a * 2 ^ (e - E0).toNat then E0 else E0 - 1
    -- the exponent of the last place, not below that of the subnormal numbers
    let qe : Int := max E (1 - F.emax) - ((F.prec : Int) - 1)
    let N := a * 2 ^ (e - qe).toNat
    let D := d * 2 ^ (qe - e).toNat
    let f := N / D
    let r := N % D
    let k := if 2 * r < D then f else if D < 2 * r then f + 1 else if f % 2 = 0 then f else f + 1
    -- `k` has at most `prec` bits or is `2 ^ prec`, so that `k * 2 ^ qe` exceeds
    -- the largest finite number exactly in these two cases
    let top : Int := F.emax - ((F.prec : Int) - 1)
    if top < qe ∨ (qe = top ∧ 2 ^ F.prec - 1 < k) then
      Flt.inf (decide (n < 0))
    else Flt.ofDyadic (if n < 0 then -(k : Int) else (k : Int)) qe

/-- Conversion of a value to a format (`double` to `float` on assignment and
on return). -/
def Flt.convert (F : Format) : Flt → Flt
  | Flt.fin m e => F.round m 1 e
  | x => x

/-- Sign change. -/
def Flt.neg : Flt → Flt
  | Flt.fin m e => Flt.fin (-m) e
  | Flt.inf s => Flt.inf (!s)
  | Flt.nan => Flt.nan

/-- Addition in a format. -/
def Flt.add (F : Format) : Flt → Flt → Flt
  | Flt.fin m1 e1, Flt.fin m2 e2 =>
    F.round (m1 * 2 ^ (e1 - min e1 e2).toNat + m2 * 2 ^ (e2 - min e1 e2).toNat) 1 (min e1 e2)
  | Flt.nan, _ => Flt.nan
  | _, Flt.nan => Flt.nan
  | Flt.inf s, Flt.fin _ _ => Flt.inf s
  | Flt.fin _ _, Flt.inf s => Flt.inf s
  | Flt.inf s, Flt.inf t => if s = t then Flt.inf s else Flt.nan

/-- Subtraction in a format. -/
def Flt.sub (F : Format) (x y : Flt) : Flt :=
  Flt.add F x (Flt.neg y)

/-- Multiplication in a format. -/
def Flt.mul (F : Format) : Flt → Flt → Flt
  | Flt.fin m1 e1, Flt.fin m2 e2 => F.round (m1 * m2) 1 (e1 + e2)
  | Flt.nan, _ => Flt.nan
  | _, Flt.nan => Flt.nan
  | Flt.inf s, Flt.fin m _ => if m = 0 then Flt.nan else Flt.inf (xor s (decide (m < 0)))
  | Flt.fin m _, Flt.inf s => if m = 0 then Flt.nan else Flt.inf (xor s (decide (m < 0)))
  | Flt.inf s, Flt.inf t => Flt.inf (xor s t)

/-- Division in a format; a zero divisor counts as a positive zero. -/
def Flt.div (F : Format) : Flt → Flt → Flt
  | Flt.fin m1 e1, Flt.fin m2 e2 =>
    if m2 = 0 then (if m1 = 0 then Flt.nan else Flt.inf (decide (m1 < 0)))
    else F.round (if m2 < 0 then -m1 else m1) m2.natAbs (e1 - e2)
  | Flt.nan, _ => Flt.nan
  | _, Flt.nan => Flt.nan
  | Flt.inf s, Flt.fin m _ => Flt.inf (xor s (decide (m < 0)))
  | Flt.fin _ _, Flt.inf _ => Flt.fin 0 0
  | Flt.inf _, Flt.inf _ => Flt.nan

/-- The comparison `x < y`. -/
def Flt.lt : Flt → Flt → Bool
  | Flt.fin m1 e1, Flt.fin m2 e2 =>
    decide (m1 * 2 ^ (e1 - min e1 e2).toNat < m2 * 2 ^ (e2 - min e1 e2).toNat)
  | Flt.fin _ _, Flt.inf s => !s
  | Flt.inf s, Flt.fin _ _ => s
  | Flt.inf s, Flt.inf t => s && !t
  | _, _ => false

/-- The comparison `x <= y`. -/
def Flt.le : Flt → Flt → Bool
  | Flt.fin m1 e1, Flt.fin m2 e2 =>
    decide (m1 * 2 ^ (e1 - min e1 e2).toNat ≤ m2 * 2 ^ (e2 - min e1 e2).toNat)
  | Flt.fin _ _, Flt.inf s => !s
  | Flt.inf s, Flt.fin _ _ => s
  | Flt.inf s, Flt.inf t => s || !t
  | _, _ => false

/-- The function `NormEvidenceOf`, with rounding. -/
def NormEvidenceOf (H : Host Flt) (K : Knobs Flt) (NormAdj : Flt) : Flt :=
  let NormAdj := Flt.div binary32 NormAdj K.NormAdjMidpoint
  let NormAdj :=
    if K.NormAdjCurl = Flt.ofInt 3 then
      Flt.mul binary32 (Flt.mul binary32 NormAdj NormAdj) NormAdj
    else if K.NormAdjCurl = Flt.ofInt 2 then Flt.mul binary32 NormAdj NormAdj
    else Flt.convert binary32 (H.pow NormAdj K.NormAdjCurl)
  Flt.convert binary32 (Flt.div binary64 (Flt.ofInt 1) (Flt.add binary64 (Flt.ofInt 1) NormAdj))

/-- The value `1.0 - NormEvidenceOf (x)` that both `return` statements of
`ComputeNormMatch` give back as a `FLOAT32`. -/
def Rating (H : Host Flt) (K : Knobs Flt) (x : Flt) : Flt :=
  Flt.convert binary32 (Flt.sub binary64 (Flt.ofInt 1) (NormEvidenceOf H K x))

/-- The value `Match` that one pass of the loop body computes for `Proto`,
with rounding. -/
def ProtoMatch (Feature : FEATURE Flt) (Proto : PROTOTYPE Flt) : Flt :=
  let Delta := Flt.sub binary32 (Feature CharNormY) (Proto.Mean CharNormY)
  let Match := Flt.mul binary32 (Flt.mul binary32 Delta Delta) (Proto.Weight CharNormY)
  let Delta := Flt.sub binary32 (Feature CharNormRx) (Proto.Mean CharNormRx)
  Flt.add binary32 Match
    (Flt.mul binary32 (Flt.mul binary32 Delta Delta) (Proto.Weight CharNormRx))

/-- The loop `iterate (Protos) { ... }` of `ComputeNormMatch`, with rounding. -/
def iterateProtos (Feature : FEATURE Flt) (DebugMatch : Bool) :
    List (PROTOTYPE Flt) → Flt → Nat → List (DebugLine Flt) → Flt × List (DebugLine Flt)
  | [], BestMatch, _, Out => (BestMatch, Out)
  | Proto :: Protos, BestMatch, ProtoId, Out =>
    let Match := ProtoMatch Feature Proto
    let BestMatch := if Flt.lt Match BestMatch then Match else BestMatch
    let Out := if DebugMatch then Out ++ [DebugLine.ProtoDump ProtoId Proto] else Out
    iterateProtos Feature DebugMatch Protos BestMatch (ProtoId + 1) Out

/-- The function `ComputeNormMatch`, with rounding. -/
def ComputeNormMatch (H : Host Flt) (K : Knobs Flt) (NormProtos : NORM_PROTOS Flt)
    (ClassId : Int) (Feature : FEATURE Flt) (DebugMatch : Bool) :
    Except Fault (Flt × List (DebugLine Flt)) :=
  if ClassId = H.NO_CLASS then
    let Match := Flt.convert binary32
      (Flt.add binary64
        (Flt.add binary64
          (Flt.mul binary64
            (Flt.mul binary32 (Feature CharNormLength) (Feature CharNormLength)) (Flt.ofInt 500))
          (Flt.mul binary64
            (Flt.mul binary32 (Feature CharNormRx) (Feature CharNormRx)) (Flt.ofInt 8000)))
        (Flt.mul binary64
          (Flt.mul binary32 (Feature CharNormRy) (Feature CharNormRy)) (Flt.ofInt 8000)))
    Except.ok (Rating H K Match, [])
  else
    let BestMatch := H.MAX_FLOAT32
    match NormProtos.ProtosAt ClassId with
    | Except.error e => Except.error e
    | Except.ok Protos =>
      let Out := if DebugMatch then [DebugLine.FeatureDump Feature] else []
      let (BestMatch, Out) := iterateProtos Feature DebugMatch Protos BestMatch 0 Out
      Except.ok (Rating H K BestMatch, Out)

/-- The host of the reference build, with rounding: `MAX_FLOAT32` is the
largest finite binary32 number and `NO_CLASS` is the identifier 0; `pow` is
left open. -/
def TessHost (pow : Flt → Flt → Flt) : Host Flt :=
  { MAX_FLOAT32 := Flt.ofInt 340282346638528859811704183484516925440
    NO_CLASS := 0
    pow := pow }

/-- The default control knobs 32.0 and 2.0. -/
def DefaultKnobs : Knobs Flt :=
  { NormAdjMidpoint := Flt.ofInt 32, NormAdjCurl := Flt.ofInt 2 }

/-- A feature given by its four channels. -/
def FeatureOf (Y Length Rx Ry : Int) : FEATURE Flt
  | CharNormY => Flt.ofInt Y
  | CharNormLength => Flt.ofInt Length
  | CharNormRx => Flt.ofInt Rx
  | CharNormRy => Flt.ofInt Ry

/-- A prototype with the given mean and weight on the two distinguished
dimensions (and mean 0, weight 1 on the others). -/
def ProtoOf (MeanY WeightY MeanRx WeightRx : Int) : PROTOTYPE Flt :=
  { Mean := fun i => match i with
      | CharNormY => Flt.ofInt MeanY
      | CharNormRx => Flt.ofInt MeanRx
      | _ => Flt.ofInt 0
    Weight := fun i => match i with
      | CharNormY => Flt.ofInt WeightY
      | CharNormRx => Flt.ofInt WeightRx
      | _ => Flt.ofInt 1 }

end Ieee

/-! ## The matcher: lemmas -/

section
variable {α : Type} [LinearOrderedField α]

theorem ProtoMatch_eq_ProtoDistance (F : FEATURE α) (p : PROTOTYPE α) :
    ProtoMatch F p = ProtoDistance F p := by
  simp only [ProtoMatch, ProtoDistance]; ring

theorem iterateProtos_fst_le (F : FEATURE α) (dbg : Bool) (L : List (PROTOTYPE α)) :
    ∀ (B : α) (n : Nat) (Out : List (DebugLine α)),
      (iterateProtos F dbg L B n Out).1 ≤ B ∧
      ∀ q ∈ L, (iterateProtos F dbg L B n Out).1 ≤ ProtoMatch F q := by
  induction L with
  | nil => intro B n Out; simp [iterateProtos]
  | cons p L ih =>
    intro B n Out
    simp only [iterateProtos]
    obtain ⟨h1, h2⟩ := ih (if ProtoMatch F p < B then ProtoMatch F p else B) (n + 1)
      (if dbg = true then Out ++ [DebugLine.ProtoDump n p] else Out)
    have hmin : (if ProtoMatch F p < B then ProtoMatch F p else B) ≤ B ∧
        (if ProtoMatch F p < B then ProtoMatch F p else B) ≤ ProtoMatch F p := by
      split_ifs with h
      · exact ⟨le_of_lt h, le_refl _⟩
      · exact ⟨le_refl _, not_lt.mp h⟩
    refine ⟨le_trans h1 hmin.1, ?_⟩
    intro q hq
    rcases List.mem_cons.mp hq with rfl | hq
    · exact le_trans h1 hmin.2
    · exact h2 q hq

theorem iterateProtos_fst_mem (F : FEATURE α) (dbg : Bool) (L : List (PROTOTYPE α)) :
    ∀ (B : α) (n : Nat) (Out : List (DebugLine α)),
      (iterateProtos F dbg L B n Out).1 = B ∨
      ∃ p ∈ L, (iterateProtos F dbg L B n Out).1 = ProtoMatch F p := by
  induction L with
  | nil => intro B n Out; simp [iterateProtos]
  | cons p L ih =>
    intro B n Out
    simp only [iterateProtos]
    rcases ih (if ProtoMatch F p < B then ProtoMatch F p else B) (n + 1)
      (if dbg = true then Out ++ [DebugLine.ProtoDump n p] else Out) with h | ⟨q, hq, h⟩
    · rw [h]
      split_ifs with hlt
      · exact Or.inr ⟨p, List.mem_cons_self _ _, rfl⟩
      · exact Or.inl rfl
    · exact Or.inr ⟨q, List.mem_cons_of_mem _ hq, h⟩

theorem ComputeNormMatch_of_class (H : Host α) (K : Knobs α) (N : NORM_PROTOS α)
    (ClassId : Int) (F : FEATURE α) (dbg : Bool) (L : List (PROTOTYPE α))
    (hc : ClassId ≠ H.NO_CLASS) (hL : N.ProtosAt ClassId = Except.ok L) :
    ComputeNormMatch H K N ClassId F dbg =
      Except.ok (1 - NormEvidenceOf H K
        (iterateProtos F dbg L H.MAX_FLOAT32 0
          (if dbg = true then [DebugLine.FeatureDump F] else [])).1,
        (iterateProtos F dbg L H.MAX_FLOAT32 0
          (if dbg = true then [DebugLine.FeatureDump F] else [])).2) := by
  simp [ComputeNormMatch, hc, hL]

theorem ComputeNormMatch_of_noise (H : Host α) (K : Knobs α) (N : NORM_PROTOS α)
    (F : FEATURE α) (dbg : Bool) :
    ComputeNormMatch H K N H.NO_CLASS F dbg =
      Except.ok (1 - NormEvidenceOf H K
        (F CharNormLength * F CharNormLength * 500 + F CharNormRx * F CharNormRx * 8000 +
          F CharNormRy * F CharNormRy * 8000), []) := by
  simp only [ComputeNormMatch, if_true]

end

/-! ## The matcher: the nearest prototype -/

section
variable {α : Type} [LinearOrderedField α]

/-- C1: for a class other than `NO_CLASS` whose prototype list `L` is not
empty (all distances being at most `MAX_FLOAT32`, as every finite `FLOAT32`
is), `ComputeNormMatch` returns `1 - NormEvidenceOf (d_p)` for a prototype
`p` of `L` whose distance `d_p` is the minimum over `L`. -/
theorem C1_rating_of_nearest_prototype (H : Host α) (K : Knobs α) (N : NORM_PROTOS α)
    (ClassId : Int) (F : FEATURE α) (dbg : Bool) (L : List (PROTOTYPE α))
    (hc : ClassId ≠ H.NO_CLASS) (hL : N.ProtosAt ClassId = Except.ok L) (hne : L ≠ [])
    (hrep : ∀ q ∈ L, ProtoDistance F q ≤ H.MAX_FLOAT32) :
    ∃ p ∈ L, (∀ q ∈ L, ProtoDistance F p ≤ ProtoDistance F q) ∧
      ∃ Out, ComputeNormMatch H K N ClassId F dbg =
        Except.ok (1 - NormEvidenceOf H K (ProtoDistance F p), Out) := by
  rw [ComputeNormMatch_of_class H K N ClassId F dbg L hc hL]
  set Out0 : List (DebugLine α) := if dbg = true then [DebugLine.FeatureDump F] else []
  obtain ⟨hB, hall⟩ := iterateProtos_fst_le F dbg L H.MAX_FLOAT32 0 Out0
  rcases iterateProtos_fst_mem F dbg L H.MAX_FLOAT32 0 Out0 with h | ⟨p, hp, h⟩
  · obtain ⟨p, hp⟩ := List.exists_mem_of_ne_nil L hne
    have hpe : ProtoDistance F p = H.MAX_FLOAT32 := by
      apply le_antisymm (hrep p hp)
      have := hall p hp
      rw [h, ProtoMatch_eq_ProtoDistance] at this
      exact this
    refine ⟨p, hp, ?_, (iterateProtos F dbg L H.MAX_FLOAT32 0 Out0).2, ?_⟩
    · intro q hq
      have := hall q hq
      rw [h, ProtoMatch_eq_ProtoDistance] at this
      rw [hpe]; exact this
    · rw [h, hpe]
  · refine ⟨p, hp, ?_, (iterateProtos F dbg L H.MAX_FLOAT32 0 Out0).2, ?_⟩
    · intro q hq
      have := hall q hq
      rw [h, ProtoMatch_eq_ProtoDistance, ProtoMatch_eq_ProtoDistance] at this
      exact this
    · rw [h, ProtoMatch_eq_ProtoDistance]

theorem TableWith_ProtosAt {β : Type} (MaxClassId ClassId : Nat) (L : List (PROTOTYPE β))
    (h : ClassId ≤ MaxClassId) :
    (TableWith MaxClassId ClassId L).ProtosAt (ClassId : Int) = Except.ok L := by
  have hlt : ClassId < (List.replicate (MaxClassId + 1) ([] : List (PROTOTYPE β))).length := by
    simp; omega
  simp only [NORM_PROTOS.ProtosAt, TableWith, Int.toNat_ofNat, Int.ofNat_nonneg, if_true,
    List.getElem?_set_self hlt]

end

/-- Witness for C1 (scenario A): knobs 32 and 2, one prototype with mean 0 and
weights 1 and 0, feature `Y = 32`, `Rx = 0`: the distance is 1024 and the
rating `1 - 1/1025`. -/
theorem C1_scenario_A :
    ((97 : Int) ≠ (TessHost Real.rpow).NO_CLASS ∧
      (TableWith 255 97 [ProtoOf (0 : ℝ) 1 0 0]).ProtosAt 97 = Except.ok [ProtoOf 0 1 0 0] ∧
      ProtoDistance (FeatureOf (32 : ℝ) 0 0 0) (ProtoOf 0 1 0 0) = 1024 ∧
      NormEvidenceOf (TessHost Real.rpow) DefaultKnobs (1024 : ℝ) = 1 / 1025) ∧
    ∃ p ∈ [ProtoOf (0 : ℝ) 1 0 0],
      (∀ q ∈ [ProtoOf (0 : ℝ) 1 0 0],
        ProtoDistance (FeatureOf 32 0 0 0) p ≤ ProtoDistance (FeatureOf 32 0 0 0) q) ∧
      ∃ Out, ComputeNormMatch (TessHost Real.rpow) DefaultKnobs
          (TableWith 255 97 [ProtoOf 0 1 0 0]) 97 (FeatureOf 32 0 0 0) false =
        Except.ok (1 - NormEvidenceOf (TessHost Real.rpow) DefaultKnobs
          (ProtoDistance (FeatureOf 32 0 0 0) p), Out) :=
  have hL : (TableWith 255 97 [ProtoOf (0 : ℝ) 1 0 0]).ProtosAt 97 =
      Except.ok [ProtoOf 0 1 0 0] := TableWith_ProtosAt 255 97 _ (by decide)
  have hd : ProtoDistance (FeatureOf (32 : ℝ) 0 0 0) (ProtoOf 0 1 0 0) = 1024 := by
    simp [ProtoDistance, FeatureOf, ProtoOf]; norm_num
  ⟨⟨by decide, hL, hd, by simp [NormEvidenceOf, TessHost, DefaultKnobs]; norm_num⟩,
    C1_rating_of_nearest_prototype (TessHost Real.rpow) DefaultKnobs _ 97
      (FeatureOf 32 0 0 0) false [ProtoOf 0 1 0 0] (by decide) hL (by simp)
      (by
        intro q hq
        rw [List.mem_singleton.mp hq, hd]
        simp only [TessHost]
        norm_num)⟩

section
variable {α : Type} [LinearOrderedField α]

/-- C2: for `NO_CLASS` the rating is
`1 - NormEvidenceOf (500 Length² + 8000 Rx² + 8000 Ry²)`, whatever the table;
so two tables, and two features that agree on `Length`, `Rx` and `Ry`, give
the same result; with knobs 32 and 2 and the three channels 0 it is 0. -/
theorem C2_noise_rating (H : Host α) (K : Knobs α) :
    (∀ (N : NORM_PROTOS α) (F : FEATURE α) (dbg : Bool),
      ComputeNormMatch H K N H.NO_CLASS F dbg =
        Except.ok (1 - NormEvidenceOf H K
          (500 * F CharNormLength ^ 2 + 8000 * F CharNormRx ^ 2 + 8000 * F CharNormRy ^ 2),
          [])) ∧
    (∀ (N N1 : NORM_PROTOS α) (F F1 : FEATURE α) (dbg dbg1 : Bool),
      F CharNormLength = F1 CharNormLength → F CharNormRx = F1 CharNormRx →
      F CharNormRy = F1 CharNormRy →
      ComputeNormMatch H K N H.NO_CLASS F dbg = ComputeNormMatch H K N1 H.NO_CLASS F1 dbg1) ∧
    (∀ (N : NORM_PROTOS α) (Y : α) (dbg : Bool),
      ComputeNormMatch H DefaultKnobs N H.NO_CLASS (FeatureOf Y 0 0 0) dbg =
        Except.ok (0, [])) := by
  have key : ∀ (K : Knobs α) (N : NORM_PROTOS α) (F : FEATURE α) (dbg : Bool),
      ComputeNormMatch H K N H.NO_CLASS F dbg =
        Except.ok (1 - NormEvidenceOf H K
          (500 * F CharNormLength ^ 2 + 8000 * F CharNormRx ^ 2 + 8000 * F CharNormRy ^ 2),
          []) := by
    intro K N F dbg
    have e : F CharNormLength * F CharNormLength * 500 + F CharNormRx * F CharNormRx * 8000 +
        F CharNormRy * F CharNormRy * 8000 =
        500 * F CharNormLength ^ 2 + 8000 * F CharNormRx ^ 2 + 8000 * F CharNormRy ^ 2 := by
      ring
    rw [ComputeNormMatch_of_noise, e]
  refine ⟨key K, ?_, ?_⟩
  · intro N N1 F F1 dbg dbg1 h1 h2 h3
    rw [key, key, h1, h2, h3]
  · intro N Y dbg
    rw [key]
    simp [NormEvidenceOf, DefaultKnobs, FeatureOf]

end

/-- The general branch of `NormEvidenceOf` and both fast branches compute
`1 / (1 + (d / Midpoint) ^ Curl)` when `pow` is the real power. -/
theorem NormEvidenceOf_eq_rpow (H : Host ℝ) (K : Knobs ℝ) (d : ℝ)
    (hpow : ∀ x y : ℝ, 0 ≤ x → 0 < y → H.pow x y = x ^ y) (hx : 0 ≤ d / K.NormAdjMidpoint)
    (hC : 0 < K.NormAdjCurl) :
    NormEvidenceOf H K d = 1 / (1 + (d / K.NormAdjMidpoint) ^ K.NormAdjCurl) := by
  unfold NormEvidenceOf
  by_cases h3 : K.NormAdjCurl = 3
  · have e : (d / K.NormAdjMidpoint) ^ (3 : ℝ) =
        d / K.NormAdjMidpoint * (d / K.NormAdjMidpoint) * (d / K.NormAdjMidpoint) := by
      rw [show (3 : ℝ) = ((3 : ℕ) : ℝ) by norm_num, Real.rpow_natCast]; ring
    simp only [h3, if_true, e]
  · by_cases h2 : K.NormAdjCurl = 2
    · have e : (d / K.NormAdjMidpoint) ^ (2 : ℝ) =
          d / K.NormAdjMidpoint * (d / K.NormAdjMidpoint) := by
        rw [show (2 : ℝ) = ((2 : ℕ) : ℝ) by norm_num, Real.rpow_natCast]; ring
      have h23 : ¬ (2 : ℝ) = 3 := by norm_num
      simp only [h2, h23, if_true, if_false, e]
    · simp only [h3, h2, if_false, hpow _ _ hx hC]

/-- C4 (as amended): for `Midpoint > 0`, `Curl > 0` and `0 ≤ d1 < d2` the
evidence does not increase, `NormEvidenceOf d2 ≤ NormEvidenceOf d1`, and the
rating `1 - NormEvidenceOf d` does not decrease. -/
theorem C4_evidence_does_not_increase (H : Host ℝ) (K : Knobs ℝ) (d1 d2 : ℝ)
    (hpow : ∀ x y : ℝ, 0 ≤ x → 0 < y → H.pow x y = x ^ y)
    (hM : 0 < K.NormAdjMidpoint) (hC : 0 < K.NormAdjCurl) (h1 : 0 ≤ d1) (h12 : d1 < d2) :
    NormEvidenceOf H K d2 ≤ NormEvidenceOf H K d1 ∧
    1 - NormEvidenceOf H K d1 ≤ 1 - NormEvidenceOf H K d2 := by
  have hx1 : 0 ≤ d1 / K.NormAdjMidpoint := div_nonneg h1 (le_of_lt hM)
  have hx12 : d1 / K.NormAdjMidpoint ≤ d2 / K.NormAdjMidpoint :=
    div_le_div_of_nonneg_right (le_of_lt h12) (le_of_lt hM)
  have hx2 : 0 ≤ d2 / K.NormAdjMidpoint := le_trans hx1 hx12
  have hp : (d1 / K.NormAdjMidpoint) ^ K.NormAdjCurl ≤ (d2 / K.NormAdjMidpoint) ^ K.NormAdjCurl :=
    Real.rpow_le_rpow hx1 hx12 (le_of_lt hC)
  have hp1 : 0 ≤ (d1 / K.NormAdjMidpoint) ^ K.NormAdjCurl := Real.rpow_nonneg hx1 _
  have hle : NormEvidenceOf H K d2 ≤ NormEvidenceOf H K d1 := by
    rw [NormEvidenceOf_eq_rpow H K d1 hpow hx1 hC, NormEvidenceOf_eq_rpow H K d2 hpow hx2 hC]
    apply one_div_le_one_div_of_le
    · linarith
    · linarith
  exact ⟨hle, by linarith⟩

/-- Witness for C4 (as amended): knobs 32 and 2, distances 0 and 32. -/
theorem C4_evidence_does_not_increase_from_0_to_32 :
    ((0 : ℝ) < (DefaultKnobs : Knobs ℝ).NormAdjMidpoint ∧
      (0 : ℝ) < (DefaultKnobs : Knobs ℝ).NormAdjCurl ∧ (0 : ℝ) ≤ 0 ∧ (0 : ℝ) < 32) ∧
    NormEvidenceOf (TessHost Real.rpow) DefaultKnobs (32 : ℝ) ≤
      NormEvidenceOf (TessHost Real.rpow) DefaultKnobs (0 : ℝ) ∧
    1 - NormEvidenceOf (TessHost Real.rpow) DefaultKnobs (0 : ℝ) ≤
      1 - NormEvidenceOf (TessHost Real.rpow) DefaultKnobs (32 : ℝ) :=
  ⟨⟨by simp [DefaultKnobs], by simp [DefaultKnobs], le_refl _, by norm_num⟩,
    C4_evidence_does_not_increase (TessHost Real.rpow) DefaultKnobs 0 32 (fun _ _ _ _ => rfl)
      (by simp [DefaultKnobs]) (by simp [DefaultKnobs]) (le_refl _) (by norm_num)⟩

/-- Witness for C2 (scenario C): two tables and two features that agree on
`Length`, `Rx` and `Ry` (all three 0); both calls return the rating 0. -/
theorem C2_noise_rating_scenario_C :
    ComputeNormMatch (TessHost Real.rpow) DefaultKnobs (TableWith 255 97 [ProtoOf (0 : ℝ) 1 0 0])
        (TessHost Real.rpow).NO_CLASS (FeatureOf 5 0 0 0) true =
      ComputeNormMatch (TessHost Real.rpow) DefaultKnobs (TableWith 255 98 [])
        (TessHost Real.rpow).NO_CLASS (FeatureOf 7 0 0 0) false ∧
    ComputeNormMatch (TessHost Real.rpow) DefaultKnobs (TableWith 255 97 [ProtoOf (0 : ℝ) 1 0 0])
        (TessHost Real.rpow).NO_CLASS (FeatureOf 5 0 0 0) true = Except.ok (0, []) :=
  ⟨(C2_noise_rating (TessHost Real.rpow) DefaultKnobs).2.1 _ _ (FeatureOf 5 0 0 0)
      (FeatureOf 7 0 0 0) true false rfl rfl rfl,
    (C2_noise_rating (TessHost Real.rpow) DefaultKnobs).2.2 _ 5 true⟩

/-! ## The matcher: range of the rating -/

section
variable {α : Type} [LinearOrderedField α]

theorem ProtoMatch_nonneg (F : FEATURE α) (p : PROTOTYPE α)
    (hY : 0 ≤ p.Weight CharNormY) (hRx : 0 ≤ p.Weight CharNormRx) :
    0 ≤ ProtoMatch F p := by
  simp only [ProtoMatch]
  exact add_nonneg (mul_nonneg (mul_self_nonneg _) hY) (mul_nonneg (mul_self_nonneg _) hRx)

theorem iterateProtos_fst_nonneg (F : FEATURE α) (dbg : Bool) (L : List (PROTOTYPE α))
    (B : α) (n : Nat) (Out : List (DebugLine α)) (hB : 0 ≤ B)
    (hw : ∀ p ∈ L, 0 ≤ p.Weight CharNormY ∧ 0 ≤ p.Weight CharNormRx) :
    0 ≤ (iterateProtos F dbg L B n Out).1 := by
  rcases iterateProtos_fst_mem F dbg L B n Out with h | ⟨p, hp, h⟩
  · rw [h]; exact hB
  · rw [h]; exact ProtoMatch_nonneg F p (hw p hp).1 (hw p hp).2

end

theorem NormEvidenceOf_bounds (H : Host ℝ) (K : Knobs ℝ) (d : ℝ)
    (hpow : ∀ x y : ℝ, 0 ≤ x → 0 < y → H.pow x y = x ^ y)
    (hM : 0 < K.NormAdjMidpoint) (hC : 0 < K.NormAdjCurl) (hd : 0 ≤ d) :
    0 < NormEvidenceOf H K d ∧ NormEvidenceOf H K d ≤ 1 := by
  have hx : 0 ≤ d / K.NormAdjMidpoint := div_nonneg hd (le_of_lt hM)
  have hp : 0 ≤ (d / K.NormAdjMidpoint) ^ K.NormAdjCurl := Real.rpow_nonneg hx _
  rw [NormEvidenceOf_eq_rpow H K d hpow hx hC]
  constructor
  · apply one_div_pos.mpr; linarith
  · rw [div_le_one (by linarith)]; linarith

/-- C5 (as amended): for `Midpoint > 0`, `Curl > 0` and `MAX_FLOAT32 ≥ 0`, the
rating is in `[0, 1]` for `NO_CLASS`, and for every class within the table
whose prototypes have nonnegative weights on the two distinguished
dimensions. -/
theorem C5_rating_in_closed_unit_interval (H : Host ℝ) (K : Knobs ℝ) (N : NORM_PROTOS ℝ)
    (ClassId : Int) (F : FEATURE ℝ) (dbg : Bool)
    (hpow : ∀ x y : ℝ, 0 ≤ x → 0 < y → H.pow x y = x ^ y)
    (hM : 0 < K.NormAdjMidpoint) (hC : 0 < K.NormAdjCurl) (hMAX : 0 ≤ H.MAX_FLOAT32)
    (hcls : ClassId = H.NO_CLASS ∨ ∃ L, N.ProtosAt ClassId = Except.ok L ∧
      ∀ p ∈ L, 0 ≤ p.Weight CharNormY ∧ 0 ≤ p.Weight CharNormRx) :
    ∃ r Out, ComputeNormMatch H K N ClassId F dbg = Except.ok (r, Out) ∧ 0 ≤ r ∧ r ≤ 1 := by
  by_cases hc : ClassId = H.NO_CLASS
  · have hd : 0 ≤ F CharNormLength * F CharNormLength * 500 +
        F CharNormRx * F CharNormRx * 8000 + F CharNormRy * F CharNormRy * 8000 := by
      have h1 := mul_self_nonneg (F CharNormLength)
      have h2 := mul_self_nonneg (F CharNormRx)
      have h3 := mul_self_nonneg (F CharNormRy)
      linarith
    obtain ⟨h0, h1⟩ := NormEvidenceOf_bounds H K _ hpow hM hC hd
    rw [hc, ComputeNormMatch_of_noise]
    exact ⟨_, _, rfl, by linarith, by linarith⟩
  · rcases hcls with h | ⟨L, hL, hw⟩
    · exact absurd h hc
    · rw [ComputeNormMatch_of_class H K N ClassId F dbg L hc hL]
      obtain ⟨h0, h1⟩ := NormEvidenceOf_bounds H K _ hpow hM hC
        (iterateProtos_fst_nonneg F dbg L H.MAX_FLOAT32 0
          (if dbg = true then [DebugLine.FeatureDump F] else []) hMAX hw)
      exact ⟨_, _, rfl, by linarith, by linarith⟩

/-- Witness for C5 (as amended): scenario A. -/
theorem C5_rating_in_closed_unit_interval_scenario_A :
    ∃ r Out, ComputeNormMatch (TessHost Real.rpow) DefaultKnobs
        (TableWith 255 97 [ProtoOf (0 : ℝ) 1 0 0]) 97 (FeatureOf 32 0 0 0) false =
      Except.ok (r, Out) ∧ 0 ≤ r ∧ r ≤ 1 :=
  C5_rating_in_closed_unit_interval (TessHost Real.rpow) DefaultKnobs _ 97 _ false
    (fun _ _ _ _ => rfl) (by simp [DefaultKnobs]) (by simp [DefaultKnobs])
    (by simp only [TessHost]; norm_num)
    (Or.inr ⟨[ProtoOf 0 1 0 0], TableWith_ProtosAt 255 97 _ (by decide), by
      intro p hp
      rw [List.mem_singleton.mp hp]
      simp [ProtoOf]⟩)

section
variable {α : Type} [LinearOrderedField α]

theorem NormEvidenceOf_default (H : Host α) (d : α) :
    NormEvidenceOf H DefaultKnobs d = 1 / (1 + d / 32 * (d / 32)) := by
  have h23 : ¬ (2 : α) = 3 := by norm_num
  simp only [NormEvidenceOf, DefaultKnobs, h23, if_false, if_true]

/-- C6: with the default knobs 32 and 2, for a class other than `NO_CLASS`
whose prototype list is empty, `ComputeNormMatch` rates the distance
`MAX_FLOAT32`, and (for every `MAX_FLOAT32` of at least 32000, as the largest
finite single-precision number is) the rating is within `1e-6` of 1. -/
theorem C6_empty_class_rating (H : Host α) (N : NORM_PROTOS α) (ClassId : Int)
    (F : FEATURE α) (dbg : Bool) (hc : ClassId ≠ H.NO_CLASS)
    (hL : N.ProtosAt ClassId = Except.ok []) (hbig : 32000 ≤ H.MAX_FLOAT32) :
    ∃ Out, ComputeNormMatch H DefaultKnobs N ClassId F dbg =
        Except.ok (1 - NormEvidenceOf H DefaultKnobs H.MAX_FLOAT32, Out) ∧
      |1 - (1 - NormEvidenceOf H DefaultKnobs H.MAX_FLOAT32)| < 1 / 1000000 := by
  refine ⟨if dbg = true then [DebugLine.FeatureDump F] else [], ?_, ?_⟩
  · rw [ComputeNormMatch_of_class H DefaultKnobs N ClassId F dbg [] hc hL]
    simp only [iterateProtos]
  · rw [NormEvidenceOf_default]
    have hx : (1000 : α) ≤ H.MAX_FLOAT32 / 32 := by
      rw [le_div_iff₀ (by norm_num)]; linarith
    have hsq : (1000000 : α) ≤ H.MAX_FLOAT32 / 32 * (H.MAX_FLOAT32 / 32) := by
      nlinarith
    have hpos : (0 : α) < 1 + H.MAX_FLOAT32 / 32 * (H.MAX_FLOAT32 / 32) := by linarith
    have e : (1 : α) - (1 - 1 / (1 + H.MAX_FLOAT32 / 32 * (H.MAX_FLOAT32 / 32))) =
        1 / (1 + H.MAX_FLOAT32 / 32 * (H.MAX_FLOAT32 / 32)) := by ring
    rw [e, abs_of_pos (one_div_pos.mpr hpos)]
    apply one_div_lt_one_div_of_lt (by norm_num)
    linarith

/-- C7 (as amended): with the default knobs 32 and 2 and `MAX_FLOAT32 ≥ 0`,
for a class other than `NO_CLASS` whose prototypes all have nonnegative
weights on the two distinguished dimensions and one of which has the
feature's values as its means on both, `ComputeNormMatch` returns 0. -/
theorem C7_exact_match_rating (H : Host α) (N : NORM_PROTOS α) (ClassId : Int)
    (F : FEATURE α) (dbg : Bool) (L : List (PROTOTYPE α)) (p : PROTOTYPE α)
    (hc : ClassId ≠ H.NO_CLASS) (hL : N.ProtosAt ClassId = Except.ok L) (hp : p ∈ L)
    (hY : p.Mean CharNormY = F CharNormY) (hRx : p.Mean CharNormRx = F CharNormRx)
    (hMAX : 0 ≤ H.MAX_FLOAT32)
    (hw : ∀ q ∈ L, 0 ≤ q.Weight CharNormY ∧ 0 ≤ q.Weight CharNormRx) :
    ProtoDistance F p = 0 ∧
    ∃ Out, ComputeNormMatch H DefaultKnobs N ClassId F dbg = Except.ok (0, Out) := by
  have hd : ProtoMatch F p = 0 := by simp [ProtoMatch, hY, hRx]
  constructor
  · rw [← ProtoMatch_eq_ProtoDistance, hd]
  · rw [ComputeNormMatch_of_class H DefaultKnobs N ClassId F dbg L hc hL]
    set Out0 : List (DebugLine α) := if dbg = true then [DebugLine.FeatureDump F] else []
    have h0 : 0 ≤ (iterateProtos F dbg L H.MAX_FLOAT32 0 Out0).1 :=
      iterateProtos_fst_nonneg F dbg L H.MAX_FLOAT32 0 Out0 hMAX hw
    have h1 : (iterateProtos F dbg L H.MAX_FLOAT32 0 Out0).1 ≤ 0 := by
      have := (iterateProtos_fst_le F dbg L H.MAX_FLOAT32 0 Out0).2 p hp
      rwa [hd] at this
    refine ⟨(iterateProtos F dbg L H.MAX_FLOAT32 0 Out0).2, ?_⟩
    rw [le_antisymm h1 h0, NormEvidenceOf_default]
    simp

end

/-- Witness for C6: the reference host and a table in which class 97 has no
prototype. -/
theorem C6_empty_class_rating_reference_host :
    ((97 : Int) ≠ (TessHost Real.rpow).NO_CLASS ∧
      (TableWith 255 97 ([] : List (PROTOTYPE ℝ))).ProtosAt 97 = Except.ok [] ∧
      (32000 : ℝ) ≤ (TessHost Real.rpow).MAX_FLOAT32) ∧
    ∃ Out, ComputeNormMatch (TessHost Real.rpow) DefaultKnobs
          (TableWith 255 97 ([] : List (PROTOTYPE ℝ))) 97 (FeatureOf 1 2 3 4) false =
        Except.ok (1 - NormEvidenceOf (TessHost Real.rpow) DefaultKnobs
          (TessHost Real.rpow).MAX_FLOAT32, Out) ∧
      |1 - (1 - NormEvidenceOf (TessHost Real.rpow) DefaultKnobs
          (TessHost Real.rpow).MAX_FLOAT32)| < 1 / 1000000 :=
  have hL : (TableWith 255 97 ([] : List (PROTOTYPE ℝ))).ProtosAt 97 = Except.ok [] :=
    TableWith_ProtosAt 255 97 _ (by decide)
  have hbig : (32000 : ℝ) ≤ (TessHost Real.rpow).MAX_FLOAT32 := by
    simp only [TessHost]; norm_num
  ⟨⟨by decide, hL, hbig⟩,
    C6_empty_class_rating (TessHost Real.rpow) _ 97 (FeatureOf 1 2 3 4) false
      (by decide) hL hbig⟩

/-- Witness for C7 (as amended), scenario B: the feature has the means of the
second of two prototypes. -/
theorem C7_exact_match_rating_scenario_B :
    ∃ Out, ComputeNormMatch (TessHost Real.rpow) DefaultKnobs
        (TableWith 255 97 [ProtoOf (0 : ℝ) 1 0 1, ProtoOf 5 2 7 3]) 97
        (FeatureOf 5 1 7 1) false = Except.ok (0, Out) :=
  (C7_exact_match_rating (TessHost Real.rpow) _ 97 (FeatureOf 5 1 7 1) false
    [ProtoOf (0 : ℝ) 1 0 1, ProtoOf 5 2 7 3] (ProtoOf 5 2 7 3) (by decide)
    (TableWith_ProtosAt 255 97 _ (by decide)) (by simp) rfl rfl
    (by simp only [TessHost]; norm_num)
    (by
      intro q hq
      simp only [List.mem_cons, List.mem_singleton, List.not_mem_nil, or_false] at hq
      rcases hq with rfl | rfl <;> simp [ProtoOf])).2

/-- Counterexample to C7 as stated: with the default knobs, the feature has
the means of the first prototype (distance 0), but the second prototype has
weight -1 on `Y` and distance -64, which is taken as the best match: the
rating is 4/5, not 0. -/
theorem C7_exact_match_not_rated_zero :
    (∃ p ∈ [ProtoOf (0 : ℝ) 1 0 1, ProtoOf 8 (-1) 0 0],
      p.Mean CharNormY = FeatureOf (0 : ℝ) 0 0 0 CharNormY ∧
      p.Mean CharNormRx = FeatureOf (0 : ℝ) 0 0 0 CharNormRx) ∧
    ComputeNormMatch (TessHost Real.rpow) DefaultKnobs
        (TableWith 255 97 [ProtoOf (0 : ℝ) 1 0 1, ProtoOf 8 (-1) 0 0]) 97
        (FeatureOf 0 0 0 0) false = Except.ok (4 / 5, []) ∧
    (4 / 5 : ℝ) ≠ 0 := by
  have h : (TableWith 255 97 [ProtoOf (0 : ℝ) 1 0 1, ProtoOf 8 (-1) 0 0]).ProtosAt 97 =
      Except.ok [ProtoOf 0 1 0 1, ProtoOf 8 (-1) 0 0] := TableWith_ProtosAt 255 97 _ (by decide)
  refine ⟨⟨ProtoOf 0 1 0 1, by simp, rfl, rfl⟩, ?_, by norm_num⟩
  rw [ComputeNormMatch_of_class _ _ _ _ _ _ _ (by decide) h, NormEvidenceOf_default]
  simp [TessHost, iterateProtos, ProtoMatch, ProtoOf, FeatureOf]
  norm_num

/-! ## The loader: lemmas -/

theorem skipSpace_length_le (File : List Char) : (skipSpace File).length ≤ File.length := by
  induction File with
  | nil => simp [skipSpace]
  | cons c File ih =>
    simp only [skipSpace]
    split_ifs
    · exact le_trans ih (Nat.le_succ _)
    · exact le_refl _

theorem scanDigits_length_le (File : List Char) :
    ∀ acc : Nat, (scanDigits File acc).2.length ≤ File.length := by
  induction File with
  | nil => intro acc; simp [scanDigits]
  | cons c File ih =>
    intro acc
    simp only [scanDigits]
    split_ifs
    · exact le_trans (ih _) (Nat.le_succ _)
    · exact le_refl _

theorem scanInt_length_lt (File File1 : List Char) (n : Int)
    (h : scanInt File = some (n, File1)) : File1.length < File.length := by
  unfold scanInt at h
  have hs := skipSpace_length_le File
  cases hsk : skipSpace File with
  | nil => rw [hsk] at h; simp at h
  | cons c File2 =>
    rw [hsk] at h hs
    simp only at h
    cases hd : isdigit c with
    | true =>
      simp only [hd, if_true, Option.some.injEq, Prod.mk.injEq] at h
      have := scanDigits_length_le File2 (0 * 10 + (c.toNat - 48))
      have e : (scanDigits (c :: File2) 0).2 = (scanDigits File2 (0 * 10 + (c.toNat - 48))).2 := by
        simp only [scanDigits, hd, if_true]
      rw [← h.2, e]
      simp only [List.length_cons] at hs
      omega
    | false =>
      simp only [hd, Bool.false_eq_true, if_false] at h
      by_cases hsg : c = '-' ∨ c = '+'
      · simp only [hsg, if_true] at h
        cases File2 with
        | nil => simp at h
        | cons d File3 =>
          simp only at h
          cases hd2 : isdigit d with
          | true =>
            simp only [hd2, if_true, Option.some.injEq, Prod.mk.injEq] at h
            have := scanDigits_length_le (d :: File3) 0
            rw [← h.2]
            simp only [List.length_cons] at hs this ⊢
            omega
          | false => simp [hd2] at h
      · simp [hsg] at h

theorem fscanf_two_length_lt (File File1 : List Char) (c : Char) (n : Int)
    (h : fscanf_1s_d File = Scanned.two c n File1) : File1.length < File.length := by
  unfold fscanf_1s_d at h
  have hs := skipSpace_length_le File
  cases hsk : skipSpace File with
  | nil => rw [hsk] at h; simp at h
  | cons d File2 =>
    rw [hsk] at h hs
    simp only at h
    cases hi : scanInt File2 with
    | none => rw [hi] at h; simp at h
    | some r =>
      obtain ⟨m, File3⟩ := r
      rw [hi] at h
      simp only [Scanned.two.injEq] at h
      have := scanInt_length_lt File2 File3 m hi
      rw [← h.2.2]
      simp only [List.length_cons] at hs
      omega

section
variable {α : Type}

theorem Records_length_le (R : ClustTool α) (NumParams : Int) :
    ∀ (n : Nat) (File File1 : List Char) (Protos : List (PROTOTYPE α)),
      Records R NumParams n File = some (Protos, File1) → File1.length ≤ File.length := by
  intro n
  induction n with
  | zero =>
    intro File File1 Protos h
    simp only [Records, Option.some.injEq, Prod.mk.injEq] at h
    rw [h.2]
  | succ n ih =>
    intro File File1 Protos h
    simp only [Records] at h
    cases hr : R.ReadPrototype File NumParams with
    | none => rw [hr] at h; simp at h
    | some pk =>
      obtain ⟨Proto, k⟩ := pk
      rw [hr] at h
      simp only at h
      cases hrest : Records R NumParams n (File.drop k) with
      | none => rw [hrest] at h; simp at h
      | some r =>
        obtain ⟨Protos1, File2⟩ := r
        rw [hrest] at h
        simp only [Option.some.injEq, Prod.mk.injEq] at h
        have h1 := ih (File.drop k) File2 Protos1 hrest
        rw [← h.2]
        have h2 : (File.drop k).length ≤ File.length := by simp
        omega

/-- The `for` loop adds the records, in file order, after the list it
starts from; it fails exactly when one of the records cannot be read. -/
theorem ReadProtosLoop_eq_Records (R : ClustTool α) (NumParams : Int) :
    ∀ (n : Nat) (Protos : List (PROTOTYPE α)) (File : List Char),
      ReadProtosLoop R NumParams n Protos File =
        match Records R NumParams n File with
        | none => Except.error Fault.DoError
        | some (New, File1) => Except.ok (Protos ++ New, File1) := by
  intro n
  induction n with
  | zero => intro Protos File; simp [ReadProtosLoop, Records]
  | succ n ih =>
    intro Protos File
    simp only [ReadProtosLoop, Records]
    cases hr : R.ReadPrototype File NumParams with
    | none => simp
    | some pk =>
      obtain ⟨Proto, k⟩ := pk
      simp only
      rw [ih]
      cases hrest : Records R NumParams n (File.drop k) with
      | none => simp
      | some r =>
        obtain ⟨Protos1, File2⟩ := r
        simp [push_last]

theorem ProtosAt_of_lt (N : NORM_PROTOS α) (i : Int) (h0 : 0 ≤ i)
    (hlt : i.toNat < N.Protos.length) :
    N.ProtosAt i = Except.ok (N.Protos.get ⟨i.toNat, hlt⟩) := by
  simp only [NORM_PROTOS.ProtosAt, h0, if_true]
  rw [List.getElem?_eq_getElem hlt]
  rfl

/-- One pass of the scanning loop over a well-formed block. -/
theorem ReadBlocks_block (P : Platform) (R : ClustTool α) (fuel : Nat) (N : NORM_PROTOS α)
    (File File1 File2 : List Char) (ClassId : Char) (NumProtos : Int)
    (New : List (PROTOTYPE α))
    (hscan : fscanf_1s_d File = Scanned.two ClassId NumProtos File1)
    (h0 : 0 ≤ charIndex P ClassId) (hlt : (charIndex P ClassId).toNat < N.Protos.length)
    (hrec : Records R N.NumParams NumProtos.toNat File1 = some (New, File2)) :
    ReadBlocks P R (fuel + 1) N File =
      ReadBlocks P R fuel
        { N with
          Protos := N.Protos.set (charIndex P ClassId).toNat
            (N.Protos.get ⟨(charIndex P ClassId).toNat, hlt⟩ ++ New) } File2 := by
  simp only [ReadBlocks, hscan, ProtosAt_of_lt N _ h0 hlt, ReadProtosLoop_eq_Records, hrec]

theorem ProtosOfClass_append (i : Nat) (A B : List (Nat × List (PROTOTYPE α))) :
    ProtosOfClass i (A ++ B) = ProtosOfClass i A ++ ProtosOfClass i B := by
  induction A with
  | nil => simp [ProtosOfClass]
  | cons b A ih =>
    obtain ⟨j, Protos⟩ := b
    show ProtosOfClass i ((j, Protos) :: (A ++ B)) = _
    simp only [ProtosOfClass]
    split_ifs
    · rw [ih, List.append_assoc]
    · exact ih

/-- The scanning loop over a sequence of well-formed blocks: it goes on from
the end of the blocks, with every class list extended by the prototypes of
the blocks of that class, in file order. -/
theorem ReadBlocks_of_BlocksRead (P : Platform) (R : ClustTool α) (NumParams : Int)
    {File File1 : List Char} {Blocks : List (Nat × List (PROTOTYPE α))}
    (hB : BlocksRead P R NumParams File Blocks File1) :
    ∀ (fuel : Nat) (N : NORM_PROTOS α), File.length < fuel → N.NumParams = NumParams →
      N.Protos.length = P.MAX_CLASS_ID + 1 →
      ∃ (fuel1 : Nat) (N1 : NORM_PROTOS α), File1.length < fuel1 ∧
        ReadBlocks P R fuel N File = ReadBlocks P R fuel1 N1 File1 ∧
        N1.NumParams = NumParams ∧ N1.ParamDesc = N.ParamDesc ∧
        N1.Protos.length = P.MAX_CLASS_ID + 1 ∧
        ∀ i : Nat, N1.Protos[i]? = (N.Protos[i]?).map (fun l => l ++ ProtosOfClass i Blocks) := by
  induction hB with
  | done File =>
    intro fuel N hf hN hlen
    exact ⟨fuel, N, hf, rfl, hN, rfl, hlen, by intro i; simp [ProtosOfClass]⟩
  | @block File File1 File2 File3 ClassId NumProtos Protos Blocks hscan h0 hmax hrec _ ih =>
    intro fuel N hf hN hlen
    have hlt : (charIndex P ClassId).toNat < N.Protos.length := by
      rw [hlen]; omega
    obtain ⟨fuel0, rfl⟩ : ∃ f, fuel = f + 1 := ⟨fuel - 1, by omega⟩
    have hl1 := fscanf_two_length_lt File File1 ClassId NumProtos hscan
    have hl2 := Records_length_le R NumParams _ _ _ _ hrec
    rw [← hN] at hrec
    rw [ReadBlocks_block P R fuel0 N File File1 File2 ClassId NumProtos Protos hscan h0 hlt hrec]
    obtain ⟨fuel1, N1, hf1, hrun, hN1, hD1, hlen1, hP1⟩ := ih fuel0
      { N with
        Protos := N.Protos.set (charIndex P ClassId).toNat
          (N.Protos.get ⟨(charIndex P ClassId).toNat, hlt⟩ ++ Protos) } (by omega) hN
      (by simp [hlen])
    refine ⟨fuel1, N1, hf1, hrun, hN1, hD1, hlen1, ?_⟩
    intro i
    rw [hP1 i]
    simp only [ProtosOfClass]
    by_cases hi : (charIndex P ClassId).toNat = i
    · subst hi
      simp [List.getElem?_set_self hlt, List.getElem?_eq_getElem hlt]
    · simp [List.getElem?_set_ne hi, hi]

end

/-! ## The loader: the loop bound -/

section
variable {α : Type}

theorem ProtosAt_error (N : NORM_PROTOS α) (i : Int) (e : Fault)
    (h : N.ProtosAt i = Except.error e) : e = Fault.OutOfBounds := by
  unfold NORM_PROTOS.ProtosAt at h
  split_ifs at h
  · cases hg : N.Protos[i.toNat]? with
    | none => rw [hg] at h; simp only [Except.error.injEq] at h; exact h.symm
    | some l => rw [hg] at h; simp at h
  · simp only [Except.error.injEq] at h; exact h.symm

/-- The bound that `ReadNormProtos` gives to its scanning loop is never
reached: every pass consumes at least one character. -/
theorem ReadBlocks_ne_Fuel (P : Platform) (R : ClustTool α) :
    ∀ (fuel : Nat) (N : NORM_PROTOS α) (File : List Char), File.length < fuel →
      ReadBlocks P R fuel N File ≠ Except.error Fault.Fuel := by
  intro fuel
  induction fuel with
  | zero => intro N File h; omega
  | succ fuel ih =>
    intro N File hf
    cases hscan : fscanf_1s_d File with
    | eof => simp [ReadBlocks, hscan]
    | one c => simp [ReadBlocks, hscan]
    | two c n File1 =>
      have hl1 := fscanf_two_length_lt File File1 c n hscan
      cases hat : N.ProtosAt (charIndex P c) with
      | error e =>
        have := ProtosAt_error N _ e hat
        subst this
        simp [ReadBlocks, hscan, hat]
      | ok Old =>
        cases hrec : Records R N.NumParams n.toNat File1 with
        | none => simp [ReadBlocks, hscan, hat, ReadProtosLoop_eq_Records, hrec]
        | some r =>
          obtain ⟨New, File2⟩ := r
          have hl2 := Records_length_le R N.NumParams _ _ _ _ hrec
          simp only [ReadBlocks, hscan, hat, ReadProtosLoop_eq_Records, hrec]
          exact ih _ File2 (by omega)

theorem ReadNormProtos_ne_Fuel (P : Platform) (R : ClustTool α) (File : List Char) :
    ReadNormProtos P R File ≠ Except.error Fault.Fuel := by
  cases hS : R.ReadSampleSize File with
  | none => simp [ReadNormProtos, hS]
  | some r =>
    obtain ⟨NumParams, k1⟩ := r
    cases hD : R.ReadParamDesc (File.drop k1) NumParams with
    | none => simp [ReadNormProtos, hS, hD]
    | some d =>
      obtain ⟨ParamDesc, k2⟩ := d
      simp only [ReadNormProtos, hS, hD]
      exact ReadBlocks_ne_Fuel P R _ _ _ (Nat.lt_succ_self _)

end

/-! ## The loader: blocks, end of scanning, failures -/

section
variable {α : Type}

theorem BlocksRead_index_le (P : Platform) (R : ClustTool α) (NumParams : Int)
    {File File1 : List Char} {Blocks : List (Nat × List (PROTOTYPE α))}
    (hB : BlocksRead P R NumParams File Blocks File1) :
    ∀ b ∈ Blocks, b.1 ≤ P.MAX_CLASS_ID := by
  induction hB with
  | done File => intro b hb; simp at hb
  | block hscan h0 hmax hrec _ ih =>
    intro b hb
    rcases List.mem_cons.mp hb with rfl | hb
    · simp only; omega
    · exact ih b hb

/-- After the sample size, the descriptors and a sequence of well-formed
blocks, `ReadNormProtos` is at the head of its scanning loop with the table
of these blocks. -/
theorem ReadNormProtos_of_BlocksRead (P : Platform) (R : ClustTool α) (File File1 : List Char)
    (NumParams : Int) (k1 k2 : Nat) (ParamDesc : List (PARAM_DESC α))
    (Blocks : List (Nat × List (PROTOTYPE α)))
    (hS : R.ReadSampleSize File = some (NumParams, k1))
    (hD : R.ReadParamDesc (File.drop k1) NumParams = some (ParamDesc, k2))
    (hB : BlocksRead P R NumParams ((File.drop k1).drop k2) Blocks File1) :
    ∃ (fuel : Nat) (N : NORM_PROTOS α),
      ReadNormProtos P R File = ReadBlocks P R (fuel + 1) N File1 ∧
      N.NumParams = NumParams ∧ N.ParamDesc = ParamDesc ∧
      N.Protos.length = P.MAX_CLASS_ID + 1 ∧
      ∀ i : Nat, i ≤ P.MAX_CLASS_ID → N.ProtosAt i = Except.ok (ProtosOfClass i Blocks) := by
  obtain ⟨fuel1, N1, hf1, hrun, hN1, hD1, hlen1, hP1⟩ :=
    ReadBlocks_of_BlocksRead P R NumParams hB (((File.drop k1).drop k2).length + 1)
      { NumParams := NumParams, ParamDesc := ParamDesc,
        Protos := List.replicate (P.MAX_CLASS_ID + 1) [] }
      (Nat.lt_succ_self _) rfl (by simp)
  obtain ⟨fuel, rfl⟩ : ∃ f, fuel1 = f + 1 := ⟨fuel1 - 1, by omega⟩
  refine ⟨fuel, N1, ?_, hN1, hD1, hlen1, ?_⟩
  · simp only [ReadNormProtos, hS, hD]
    exact hrun
  · intro i hi
    have h := hP1 i
    have hlt : i < P.MAX_CLASS_ID + 1 := by omega
    simp only [List.getElem?_replicate, hlt, if_true, Option.map_some', List.nil_append] at h
    simp only [NORM_PROTOS.ProtosAt, Int.toNat_ofNat, Int.ofNat_nonneg, if_true, h]

theorem ReadBlocks_stop (P : Platform) (R : ClustTool α) (fuel : Nat) (N : NORM_PROTOS α)
    (File : List Char) (hend : (fscanf_1s_d File).ret ≠ 2) :
    ReadBlocks P R (fuel + 1) N File = Except.ok N := by
  cases h : fscanf_1s_d File with
  | eof => simp only [ReadBlocks, h]
  | one c => simp only [ReadBlocks, h]
  | two c n File1 => rw [h] at hend; exact absurd rfl hend

/-- C8: when the source holds the well-formed blocks `Earlier`, then a block
of class `k` with the prototypes `New`, then the blocks `Later`, the list
that `ReadNormProtos` leaves for class `k` is the prototypes of the earlier
blocks of `k`, followed by `New` in file order (followed by those of the
later blocks of `k`), and the list of every other class is as without that
block. -/
theorem C8_repeated_class_appends (P : Platform) (R : ClustTool α) (File File1 : List Char)
    (NumParams : Int) (k1 k2 : Nat) (ParamDesc : List (PARAM_DESC α))
    (Earlier Later : List (Nat × List (PROTOTYPE α))) (k : Nat) (New : List (PROTOTYPE α))
    (hS : R.ReadSampleSize File = some (NumParams, k1))
    (hD : R.ReadParamDesc (File.drop k1) NumParams = some (ParamDesc, k2))
    (hB : BlocksRead P R NumParams ((File.drop k1).drop k2)
      (Earlier ++ (k, New) :: Later) File1)
    (hend : (fscanf_1s_d File1).ret ≠ 2) :
    ∃ N, ReadNormProtos P R File = Except.ok N ∧
      N.ProtosAt k =
        Except.ok (ProtosOfClass k Earlier ++ New ++ ProtosOfClass k Later) ∧
      ∀ i : Nat, i ≤ P.MAX_CLASS_ID → i ≠ k →
        N.ProtosAt i = Except.ok (ProtosOfClass i Earlier ++ ProtosOfClass i Later) := by
  obtain ⟨fuel, N, hrun, _, _, _, hP⟩ :=
    ReadNormProtos_of_BlocksRead P R File File1 NumParams k1 k2 ParamDesc _ hS hD hB
  have hk : k ≤ P.MAX_CLASS_ID :=
    BlocksRead_index_le P R NumParams hB (k, New) (by simp)
  refine ⟨N, ?_, ?_, ?_⟩
  · rw [hrun, ReadBlocks_stop P R fuel N File1 hend]
  · rw [hP k hk, ProtosOfClass_append]
    simp [ProtosOfClass, List.append_assoc]
  · intro i hi hik
    rw [hP i hi, ProtosOfClass_append]
    simp [ProtosOfClass, Ne.symm hik]

/-- C9: when the sample size and the descriptors are read and the source then
holds the well-formed blocks `Blocks`, after which `fscanf` does not return 2
(end of input, or a header that does not parse), `ReadNormProtos` returns a
table, and the table holds for every class exactly the prototypes of the
blocks of that class. -/
theorem C9_scan_ends_at_unreadable_header (P : Platform) (R : ClustTool α)
    (File File1 : List Char) (NumParams : Int) (k1 k2 : Nat) (ParamDesc : List (PARAM_DESC α))
    (Blocks : List (Nat × List (PROTOTYPE α)))
    (hS : R.ReadSampleSize File = some (NumParams, k1))
    (hD : R.ReadParamDesc (File.drop k1) NumParams = some (ParamDesc, k2))
    (hB : BlocksRead P R NumParams ((File.drop k1).drop k2) Blocks File1)
    (hend : (fscanf_1s_d File1).ret ≠ 2) :
    ∃ N, ReadNormProtos P R File = Except.ok N ∧
      N.NumParams = NumParams ∧ N.ParamDesc = ParamDesc ∧
      N.Protos.length = P.MAX_CLASS_ID + 1 ∧
      ∀ i : Nat, i ≤ P.MAX_CLASS_ID → N.ProtosAt i = Except.ok (ProtosOfClass i Blocks) := by
  obtain ⟨fuel, N, hrun, hN, hDesc, hlen, hP⟩ :=
    ReadNormProtos_of_BlocksRead P R File File1 NumParams k1 k2 ParamDesc _ hS hD hB
  exact ⟨N, by rw [hrun, ReadBlocks_stop P R fuel N File1 hend], hN, hDesc, hlen, hP⟩

/-- C10 (as amended): `ReadNormProtos` fails, and gives no table, when the
sample size cannot be read, when the descriptors cannot be read, and when,
after any number of well-formed blocks, a block header is read but one of
the prototype records that it announces cannot be read. -/
theorem C10_load_fails_on_unreadable_record (P : Platform) (R : ClustTool α)
    (File : List Char) :
    (R.ReadSampleSize File = none → ReadNormProtos P R File = Except.error Fault.DoError) ∧
    (∀ (NumParams : Int) (k1 : Nat), R.ReadSampleSize File = some (NumParams, k1) →
      R.ReadParamDesc (File.drop k1) NumParams = none →
      ReadNormProtos P R File = Except.error Fault.DoError) ∧
    (∀ (NumParams : Int) (k1 k2 : Nat) (ParamDesc : List (PARAM_DESC α))
      (Blocks : List (Nat × List (PROTOTYPE α))) (File1 File2 : List Char)
      (ClassId : Char) (NumProtos : Int),
      R.ReadSampleSize File = some (NumParams, k1) →
      R.ReadParamDesc (File.drop k1) NumParams = some (ParamDesc, k2) →
      BlocksRead P R NumParams ((File.drop k1).drop k2) Blocks File1 →
      fscanf_1s_d File1 = Scanned.two ClassId NumProtos File2 →
      0 ≤ charIndex P ClassId → charIndex P ClassId ≤ P.MAX_CLASS_ID →
      Records R NumParams NumProtos.toNat File2 = none →
      ReadNormProtos P R File = Except.error Fault.DoError) := by
  refine ⟨?_, ?_, ?_⟩
  · intro hS
    simp only [ReadNormProtos, hS]
  · intro NumParams k1 hS hD
    simp only [ReadNormProtos, hS, hD]
  · intro NumParams k1 k2 ParamDesc Blocks File1 File2 ClassId NumProtos hS hD hB hscan h0 hmax
      hrec
    obtain ⟨fuel, N, hrun, hN, _, hlen, _⟩ :=
      ReadNormProtos_of_BlocksRead P R File File1 NumParams k1 k2 ParamDesc _ hS hD hB
    have hlt : (charIndex P ClassId).toNat < N.Protos.length := by
      rw [hlen]; omega
    rw [hrun]
    simp only [ReadBlocks, hscan, ProtosAt_of_lt N _ h0 hlt, ReadProtosLoop_eq_Records, hN, hrec]

end

/-! ## The loader: worked sources -/

set_option maxRecDepth 8000

/-- Witness for C8: in `SourceRepeated` class `a` (97) heads the first and
the third block; its list is the record of the first block followed by the
two records of the third, and class `b` (98) keeps its one record. -/
theorem C8_repeated_class_appends_in_SourceRepeated :
    ∃ N, ReadNormProtos TessPlatform ToyClustTool SourceRepeated = Except.ok N ∧
      N.ProtosAt 97 = Except.ok [ToyProto 1 2, ToyProto 7 8, ToyProto 9 10] ∧
      N.ProtosAt 98 = Except.ok [ToyProto 5 6] :=
  have b3 : BlocksRead TessPlatform ToyClustTool 2 "\na 2\n7 8\n9 10\n".toList
      [(97, [ToyProto 7 8, ToyProto 9 10])] "\n".toList :=
    @BlocksRead.block ℚ TessPlatform ToyClustTool 2 _ "\n7 8\n9 10\n".toList _ _
      'a' 2 [ToyProto 7 8, ToyProto 9 10] [] (by rfl) (by decide) (by decide) (by rfl)
      (BlocksRead.done _)
  have b2 : BlocksRead TessPlatform ToyClustTool 2 "\nb 1\n5 6\na 2\n7 8\n9 10\n".toList
      [(98, [ToyProto 5 6]), (97, [ToyProto 7 8, ToyProto 9 10])] "\n".toList :=
    @BlocksRead.block ℚ TessPlatform ToyClustTool 2 _ "\n5 6\na 2\n7 8\n9 10\n".toList _ _
      'b' 1 [ToyProto 5 6] _ (by rfl) (by decide) (by decide) (by rfl) b3
  have b1 : BlocksRead TessPlatform ToyClustTool 2 ((SourceRepeated.drop 1).drop 3)
      ([(97, [ToyProto 1 2]), (98, [ToyProto 5 6])] ++
        (97, [ToyProto 7 8, ToyProto 9 10]) :: []) "\n".toList :=
    @BlocksRead.block ℚ TessPlatform ToyClustTool 2 _
      "\n1 2\nb 1\n5 6\na 2\n7 8\n9 10\n".toList _ _
      'a' 1 [ToyProto 1 2] _ (by rfl) (by decide) (by decide) (by rfl) b2
  match C8_repeated_class_appends TessPlatform ToyClustTool SourceRepeated "\n".toList 2 1 3
    ToyDescs [(97, [ToyProto 1 2]), (98, [ToyProto 5 6])] [] 97 [ToyProto 7 8, ToyProto 9 10]
    (by rfl) (by rfl) b1 (by decide) with
  | ⟨N, h1, h2, h3⟩ => ⟨N, h1, h2, h3 98 (by decide) (by decide)⟩

/-- Witness for C9: in `SourceBadCount` the header `b x` cannot be read; the
table that is returned holds the one record of the block before it. -/
theorem C9_scan_ends_in_SourceBadCount :
    (fscanf_1s_d "\nb x\n".toList).ret ≠ 2 ∧
    ∃ N, ReadNormProtos TessPlatform ToyClustTool SourceBadCount = Except.ok N ∧
      N.NumParams = 2 ∧ N.ParamDesc = ToyDescs ∧
      N.Protos.length = TessPlatform.MAX_CLASS_ID + 1 ∧
      ∀ i : Nat, i ≤ TessPlatform.MAX_CLASS_ID →
        N.ProtosAt i = Except.ok (ProtosOfClass i [(97, [ToyProto 1 2])]) :=
  have b1 : BlocksRead TessPlatform ToyClustTool 2 ((SourceBadCount.drop 1).drop 3)
      [(97, [ToyProto 1 2])] "\nb x\n".toList :=
    @BlocksRead.block ℚ TessPlatform ToyClustTool 2 _ "\n1 2\nb x\n".toList _ _
      'a' 1 [ToyProto 1 2] [] (by rfl) (by decide) (by decide) (by rfl) (BlocksRead.done _)
  ⟨by decide,
    C9_scan_ends_at_unreadable_header TessPlatform ToyClustTool SourceBadCount "\nb x\n".toList
      2 1 3 ToyDescs [(97, [ToyProto 1 2])] (by rfl) (by rfl) b1 (by decide)⟩

/-- Counterexample to C10 as stated: in `SourceBadCount` a block of class `a`
is followed by the header `b x`, a class character without a count; `fscanf`
returns 1 there, and `ReadNormProtos` returns the table with the record of
class `a` instead of failing. -/
theorem C10_partial_table_from_SourceBadCount :
    fscanf_1s_d (SourceBadCount.drop 12) = Scanned.one 'b' ∧
    ReadNormProtos TessPlatform ToyClustTool SourceBadCount =
      Except.ok { NumParams := 2, ParamDesc := ToyDescs,
                  Protos := (List.replicate 256 []).set 97 [ToyProto 1 2] } :=
  ⟨by decide, by rfl⟩

/-- Witness for C10 (as amended): in `SourceTruncated` the block of class `b`
announces two records and the second is cut off; the load fails. -/
theorem C10_load_fails_on_SourceTruncated :
    Records ToyClustTool 2 (2 : Int).toNat "\n5 6\n7".toList = none ∧
    ReadNormProtos TessPlatform ToyClustTool SourceTruncated = Except.error Fault.DoError :=
  have b1 : BlocksRead TessPlatform ToyClustTool 2 ((SourceTruncated.drop 1).drop 3)
      [(97, [ToyProto 1 2])] "\nb 2\n5 6\n7".toList :=
    @BlocksRead.block ℚ TessPlatform ToyClustTool 2 _ "\n1 2\nb 2\n5 6\n7".toList _ _
      'a' 1 [ToyProto 1 2] [] (by rfl) (by decide) (by decide) (by rfl) (BlocksRead.done _)
  ⟨by rfl,
    (C10_load_fails_on_unreadable_record TessPlatform ToyClustTool SourceTruncated).2.2
      2 1 3 ToyDescs [(97, [ToyProto 1 2])] "\nb 2\n5 6\n7".toList "\n5 6\n7".toList 'b' 2
      (by rfl) (by rfl) b1 (by rfl) (by decide) (by decide) (by rfl)⟩

/-! ## The matcher: called with an identifier outside the table -/

section
variable {α : Type} [LinearOrderedField α]

theorem ComputeNormMatch_of_fault (H : Host α) (K : Knobs α) (N : NORM_PROTOS α)
    (ClassId : Int) (F : FEATURE α) (dbg : Bool) (e : Fault)
    (hc : ClassId ≠ H.NO_CLASS) (hL : N.ProtosAt ClassId = Except.error e) :
    ComputeNormMatch H K N ClassId F dbg = Except.error e := by
  simp [ComputeNormMatch, hc, hL]

theorem ProtosAt_of_outside {β : Type} (N : NORM_PROTOS β) (ClassId : Int)
    (h : ClassId < 0 ∨ (N.Protos.length : Int) ≤ ClassId) :
    N.ProtosAt ClassId = Except.error Fault.OutOfBounds := by
  unfold NORM_PROTOS.ProtosAt
  split_ifs with h0
  · have hge : N.Protos.length ≤ ClassId.toNat := by omega
    rw [List.getElem?_eq_none hge]
  · rfl

theorem TableWith_length {β : Type} (MaxClassId ClassId : Nat) (L : List (PROTOTYPE β)) :
    (TableWith MaxClassId ClassId L).Protos.length = MaxClassId + 1 := by
  simp [TableWith]

/-- C11 (as amended): `ComputeNormMatch` does not validate the identifier.
For every identifier other than `NO_CLASS` the call is the array read
`Protos[ClassId]` followed by the matching loop: for an identifier within
`0 .. MAX_CLASS_ID` the read is in bounds and a rating is returned, and for an
identifier outside that range the `Protos` array is indexed out of range. -/
theorem C11_identifier_is_not_validated (H : Host α) (K : Knobs α) (P : Platform)
    (N : NORM_PROTOS α) (ClassId : Int) (F : FEATURE α) (dbg : Bool)
    (hlen : N.Protos.length = P.MAX_CLASS_ID + 1) (hc : ClassId ≠ H.NO_CLASS) :
    (0 ≤ ClassId ∧ ClassId ≤ P.MAX_CLASS_ID →
      ∃ r Out, ComputeNormMatch H K N ClassId F dbg = Except.ok (r, Out)) ∧
    (¬ (0 ≤ ClassId ∧ ClassId ≤ P.MAX_CLASS_ID) →
      N.ProtosAt ClassId = Except.error Fault.OutOfBounds ∧
      ComputeNormMatch H K N ClassId F dbg = Except.error Fault.OutOfBounds) := by
  constructor
  · rintro ⟨h0, h1⟩
    have hlt : ClassId.toNat < N.Protos.length := by rw [hlen]; omega
    rw [ComputeNormMatch_of_class H K N ClassId F dbg _ hc (ProtosAt_of_lt N ClassId h0 hlt)]
    exact ⟨_, _, rfl⟩
  · intro hout
    have hL : N.ProtosAt ClassId = Except.error Fault.OutOfBounds := by
      apply ProtosAt_of_outside
      rw [hlen]
      by_cases h0 : 0 ≤ ClassId
      · right
        have : ¬ ClassId ≤ P.MAX_CLASS_ID := fun h => hout ⟨h0, h⟩
        push_cast
        omega
      · left; omega
    exact ⟨hL, ComputeNormMatch_of_fault H K N ClassId F dbg _ hc hL⟩

end

/-- Witness for C11 (as amended): identifier 97 in a table of 256 lists. -/
theorem C11_identifier_97_is_read :
    ∃ r Out, ComputeNormMatch (TessHost Real.rpow) DefaultKnobs
      (TableWith 255 97 [ProtoOf (0 : ℝ) 1 0 0]) 97 (FeatureOf 32 0 0 0) false =
        Except.ok (r, Out) :=
  (C11_identifier_is_not_validated (TessHost Real.rpow) DefaultKnobs TessPlatform
    (TableWith 255 97 [ProtoOf (0 : ℝ) 1 0 0]) 97 (FeatureOf 32 0 0 0) false
    (TableWith_length 255 97 _) (by decide)).1 ⟨by decide, by decide⟩

/-- Counterexample to C11 as stated: the identifier 256 is outside `0 .. 255`
and is not `NO_CLASS`; the call goes to the array read `Protos[256]` of a
table with 256 lists, so the array is indexed out of range. -/
theorem C11_identifier_256_indexes_out_of_range :
    (256 : Int) ≠ (TessHost Real.rpow).NO_CLASS ∧
    ¬ ((0 : Int) ≤ 256 ∧ (256 : Int) ≤ TessPlatform.MAX_CLASS_ID) ∧
    (TableWith 255 97 [ProtoOf (0 : ℝ) 1 0 0]).Protos.length = 256 ∧
    (TableWith 255 97 [ProtoOf (0 : ℝ) 1 0 0]).ProtosAt 256 =
      Except.error Fault.OutOfBounds ∧
    ComputeNormMatch (TessHost Real.rpow) DefaultKnobs
      (TableWith 255 97 [ProtoOf (0 : ℝ) 1 0 0]) 256 (FeatureOf 32 0 0 0) false =
        Except.error Fault.OutOfBounds := by
  have hlen : (TableWith 255 97 [ProtoOf (0 : ℝ) 1 0 0]).Protos.length = 256 :=
    TableWith_length 255 97 _
  have hL : (TableWith 255 97 [ProtoOf (0 : ℝ) 1 0 0]).ProtosAt 256 =
      Except.error Fault.OutOfBounds :=
    ProtosAt_of_outside _ 256 (Or.inr (by rw [hlen]; norm_num))
  exact ⟨by decide, by decide, hlen, hL,
    ComputeNormMatch_of_fault _ _ _ 256 _ false _ (by decide) hL⟩

/-! ## The transform at the midpoint, at zero and at infinity -/

/-- C12: for `Midpoint > 0` and `Curl > 0` the rating of the distance
`Midpoint` is exactly `1/2`, whichever branch computes the power; in
particular it is so for `Curl = 2` and for `Curl = 3`. -/
theorem C12_rating_at_midpoint (H : Host ℝ) (K : Knobs ℝ)
    (hpow : ∀ x y : ℝ, 0 ≤ x → 0 < y → H.pow x y = x ^ y)
    (hM : 0 < K.NormAdjMidpoint) (hC : 0 < K.NormAdjCurl) :
    1 - NormEvidenceOf H K K.NormAdjMidpoint = 1 / 2 ∧
    1 - NormEvidenceOf H ⟨K.NormAdjMidpoint, 2⟩ K.NormAdjMidpoint = 1 / 2 ∧
    1 - NormEvidenceOf H ⟨K.NormAdjMidpoint, 3⟩ K.NormAdjMidpoint = 1 / 2 := by
  have h1 : K.NormAdjMidpoint / K.NormAdjMidpoint = 1 := div_self (ne_of_gt hM)
  have key : ∀ C : ℝ, 0 < C →
      1 - NormEvidenceOf H ⟨K.NormAdjMidpoint, C⟩ K.NormAdjMidpoint = 1 / 2 := by
    intro C hC'
    rw [NormEvidenceOf_eq_rpow H ⟨K.NormAdjMidpoint, C⟩ _ hpow
      (by show 0 ≤ K.NormAdjMidpoint / K.NormAdjMidpoint; rw [h1]; norm_num) hC']
    show 1 - 1 / (1 + (K.NormAdjMidpoint / K.NormAdjMidpoint) ^ C) = 1 / 2
    rw [h1, Real.one_rpow]
    norm_num
  exact ⟨key K.NormAdjCurl hC, key 2 (by norm_num), key 3 (by norm_num)⟩

/-- Witness for C12: knobs 32 and 5/2 (the general branch). -/
theorem C12_rating_at_midpoint_32 :
    1 - NormEvidenceOf (TessHost Real.rpow) ⟨32, 5 / 2⟩ (32 : ℝ) = 1 / 2 :=
  (C12_rating_at_midpoint (TessHost Real.rpow) ⟨32, 5 / 2⟩ (fun _ _ _ _ => rfl)
    (by norm_num) (by norm_num)).1

/-- C13: for `Midpoint > 0` and `Curl > 0` the evidence of the distance 0 is 1
and its rating is 0, whichever branch computes the power; in particular it
is so for `Curl = 2` and for `Curl = 3`. -/
theorem C13_rating_at_zero (H : Host ℝ) (K : Knobs ℝ)
    (hpow : ∀ x y : ℝ, 0 ≤ x → 0 < y → H.pow x y = x ^ y)
    (_hM : 0 < K.NormAdjMidpoint) (hC : 0 < K.NormAdjCurl) :
    (NormEvidenceOf H K 0 = 1 ∧ 1 - NormEvidenceOf H K 0 = 0) ∧
    (NormEvidenceOf H ⟨K.NormAdjMidpoint, 2⟩ 0 = 1 ∧
      1 - NormEvidenceOf H ⟨K.NormAdjMidpoint, 2⟩ 0 = 0) ∧
    (NormEvidenceOf H ⟨K.NormAdjMidpoint, 3⟩ 0 = 1 ∧
      1 - NormEvidenceOf H ⟨K.NormAdjMidpoint, 3⟩ 0 = 0) := by
  have key : ∀ C : ℝ, 0 < C → NormEvidenceOf H ⟨K.NormAdjMidpoint, C⟩ 0 = 1 ∧
      1 - NormEvidenceOf H ⟨K.NormAdjMidpoint, C⟩ 0 = 0 := by
    intro C hC'
    have h0 : NormEvidenceOf H ⟨K.NormAdjMidpoint, C⟩ 0 = 1 := by
      rw [NormEvidenceOf_eq_rpow H ⟨K.NormAdjMidpoint, C⟩ _ hpow
        (by show 0 ≤ (0 : ℝ) / K.NormAdjMidpoint; rw [zero_div]) hC']
      show 1 / (1 + ((0 : ℝ) / K.NormAdjMidpoint) ^ C) = 1
      rw [zero_div, Real.zero_rpow (ne_of_gt hC')]
      norm_num
    exact ⟨h0, by rw [h0]; norm_num⟩
  exact ⟨key K.NormAdjCurl hC, key 2 (by norm_num), key 3 (by norm_num)⟩

/-- Witness for C13: knobs 32 and 5/2 (the general branch). -/
theorem C13_rating_at_zero_general_branch :
    NormEvidenceOf (TessHost Real.rpow) ⟨32, 5 / 2⟩ (0 : ℝ) = 1 ∧
    1 - NormEvidenceOf (TessHost Real.rpow) ⟨32, 5 / 2⟩ (0 : ℝ) = 0 :=
  (C13_rating_at_zero (TessHost Real.rpow) ⟨32, 5 / 2⟩ (fun _ _ _ _ => rfl)
    (by norm_num) (by norm_num)).1

/-- C14 (as amended): for `Midpoint > 0` and `Curl > 0`, for every `eps > 0`
there is a `D` such that for every distance `d ≥ D` the evidence is in
`[0, eps)` and the rating `1 - NormEvidenceOf d` is in `(1 - eps, 1]`. -/
theorem C14_rating_approaches_one (H : Host ℝ) (K : Knobs ℝ)
    (hpow : ∀ x y : ℝ, 0 ≤ x → 0 < y → H.pow x y = x ^ y)
    (hM : 0 < K.NormAdjMidpoint) (hC : 0 < K.NormAdjCurl) (eps : ℝ) (heps : 0 < eps) :
    ∃ D : ℝ, ∀ d : ℝ, D ≤ d →
      (0 ≤ NormEvidenceOf H K d ∧ NormEvidenceOf H K d < eps) ∧
      (1 - eps < 1 - NormEvidenceOf H K d ∧ 1 - NormEvidenceOf H K d ≤ 1) := by
  have hroot : 0 ≤ (1 / eps) ^ (1 / K.NormAdjCurl) :=
    Real.rpow_nonneg (le_of_lt (one_div_pos.mpr heps)) _
  refine ⟨K.NormAdjMidpoint * (1 / eps) ^ (1 / K.NormAdjCurl), ?_⟩
  intro d hd
  have hd0 : 0 ≤ d := le_trans (mul_nonneg (le_of_lt hM) hroot) hd
  have hx : (1 / eps) ^ (1 / K.NormAdjCurl) ≤ d / K.NormAdjMidpoint := by
    rw [le_div_iff₀ hM]; linarith
  have hx0 : 0 ≤ d / K.NormAdjMidpoint := le_trans hroot hx
  have hp : 1 / eps ≤ (d / K.NormAdjMidpoint) ^ K.NormAdjCurl := by
    have h1 := Real.rpow_le_rpow hroot hx (le_of_lt hC)
    have h2 : ((1 / eps) ^ (1 / K.NormAdjCurl)) ^ K.NormAdjCurl = 1 / eps := by
      rw [← Real.rpow_mul (le_of_lt (one_div_pos.mpr heps)),
        one_div_mul_cancel (ne_of_gt hC), Real.rpow_one]
    rwa [h2] at h1
  have hev : NormEvidenceOf H K d < eps := by
    rw [NormEvidenceOf_eq_rpow H K d hpow hx0 hC]
    have hpos : 0 < 1 + (d / K.NormAdjMidpoint) ^ K.NormAdjCurl := by
      have := one_div_pos.mpr heps
      linarith
    rw [div_lt_iff₀ hpos]
    have h3 : eps * (1 / eps) = 1 := by field_simp
    nlinarith
  have hb := NormEvidenceOf_bounds H K d hpow hM hC hd0
  exact ⟨⟨le_of_lt hb.1, hev⟩, by linarith, by linarith [hb.1]⟩

/-- Witness for C14 (as amended): the default knobs and `eps = 1/100`. -/
theorem C14_rating_approaches_one_default_knobs :
    ∃ D : ℝ, ∀ d : ℝ, D ≤ d →
      (0 ≤ NormEvidenceOf (TessHost Real.rpow) DefaultKnobs d ∧
        NormEvidenceOf (TessHost Real.rpow) DefaultKnobs d < 1 / 100) ∧
      (1 - 1 / 100 < 1 - NormEvidenceOf (TessHost Real.rpow) DefaultKnobs d ∧
        1 - NormEvidenceOf (TessHost Real.rpow) DefaultKnobs d ≤ 1) :=
  C14_rating_approaches_one (TessHost Real.rpow) DefaultKnobs (fun _ _ _ _ => rfl)
    (by simp [DefaultKnobs]) (by simp [DefaultKnobs]) (1 / 100) (by norm_num)

/-! ## The matcher: debug flag, order of the prototypes, one more prototype -/

section
variable {α : Type} [LinearOrderedField α]

/-- The best match that the loop finds does not depend on the debug flag, on
the prototype counter or on the output written before. -/
theorem iterateProtos_fst_eq (F : FEATURE α) (dbg dbg1 : Bool) (L : List (PROTOTYPE α)) :
    ∀ (B : α) (n n1 : Nat) (Out Out1 : List (DebugLine α)),
      (iterateProtos F dbg L B n Out).1 = (iterateProtos F dbg1 L B n1 Out1).1 := by
  induction L with
  | nil => intro B n n1 Out Out1; rfl
  | cons p L ih =>
    intro B n n1 Out Out1
    simp only [iterateProtos]
    exact ih _ _ _ _ _

/-- Without the debug flag the loop writes nothing. -/
theorem iterateProtos_snd_quiet (F : FEATURE α) (L : List (PROTOTYPE α)) :
    ∀ (B : α) (n : Nat) (Out : List (DebugLine α)),
      (iterateProtos F false L B n Out).2 = Out := by
  induction L with
  | nil => intro B n Out; rfl
  | cons p L ih =>
    intro B n Out
    simp only [iterateProtos, Bool.false_eq_true, if_false]
    exact ih _ _ _

/-- C15: for every class identifier, table and feature, the rating (the first
component of the outcome) is the same with `DebugMatch` true as with
`DebugMatch` false, and so is a fault; with `DebugMatch` false no diagnostic
output is written. -/
theorem C15_debug_flag_keeps_rating (H : Host α) (K : Knobs α) (N : NORM_PROTOS α)
    (ClassId : Int) (F : FEATURE α) :
    (ComputeNormMatch H K N ClassId F true).map Prod.fst =
      (ComputeNormMatch H K N ClassId F false).map Prod.fst ∧
    ∀ r Out, ComputeNormMatch H K N ClassId F false = Except.ok (r, Out) → Out = [] := by
  by_cases hc : ClassId = H.NO_CLASS
  · subst hc
    rw [ComputeNormMatch_of_noise, ComputeNormMatch_of_noise]
    refine ⟨rfl, ?_⟩
    intro r Out h
    simp only [Except.ok.injEq, Prod.mk.injEq] at h
    exact h.2.symm
  · cases hL : N.ProtosAt ClassId with
    | error e =>
      rw [ComputeNormMatch_of_fault H K N ClassId F true e hc hL,
        ComputeNormMatch_of_fault H K N ClassId F false e hc hL]
      refine ⟨rfl, ?_⟩
      intro r Out h
      simp at h
    | ok L =>
      rw [ComputeNormMatch_of_class H K N ClassId F true L hc hL,
        ComputeNormMatch_of_class H K N ClassId F false L hc hL]
      constructor
      · simp only [Except.map]
        rw [iterateProtos_fst_eq F true false L H.MAX_FLOAT32 0 0 _ _]
      · intro r Out h
        simp only [Except.ok.injEq, Prod.mk.injEq] at h
        rw [← h.2, iterateProtos_snd_quiet]
        simp

/-- The best match depends only on which prototypes the list holds. -/
theorem iterateProtos_fst_of_same_members (F : FEATURE α) (dbg dbg1 : Bool)
    (L L1 : List (PROTOTYPE α)) (B : α) (n n1 : Nat) (Out Out1 : List (DebugLine α))
    (hmem : ∀ p, p ∈ L ↔ p ∈ L1) :
    (iterateProtos F dbg L B n Out).1 = (iterateProtos F dbg1 L1 B n1 Out1).1 := by
  have key : ∀ (dbg dbg1 : Bool) (L L1 : List (PROTOTYPE α)) (n n1 : Nat)
      (Out Out1 : List (DebugLine α)), (∀ p, p ∈ L → p ∈ L1) →
      (iterateProtos F dbg1 L1 B n1 Out1).1 ≤ (iterateProtos F dbg L B n Out).1 := by
    intro dbg dbg1 L L1 n n1 Out Out1 hsub
    obtain ⟨hB, hall⟩ := iterateProtos_fst_le F dbg1 L1 B n1 Out1
    rcases iterateProtos_fst_mem F dbg L B n Out with h | ⟨p, hp, h⟩
    · rw [h]; exact hB
    · rw [h]; exact hall p (hsub p hp)
  exact le_antisymm (key dbg1 dbg L1 L n1 n Out1 Out (fun p hp => (hmem p).mpr hp))
    (key dbg dbg1 L L1 n n1 Out Out1 (fun p hp => (hmem p).mp hp))

/-- C17: for a class other than `NO_CLASS`, two tables whose prototype lists
for that class are permutations of each other give the same rating. -/
theorem C17_rating_ignores_prototype_order (H : Host α) (K : Knobs α)
    (N N1 : NORM_PROTOS α) (ClassId : Int) (F : FEATURE α) (dbg : Bool)
    (L L1 : List (PROTOTYPE α)) (hc : ClassId ≠ H.NO_CLASS)
    (hL : N.ProtosAt ClassId = Except.ok L) (hL1 : N1.ProtosAt ClassId = Except.ok L1)
    (hperm : L.Perm L1) :
    (ComputeNormMatch H K N ClassId F dbg).map Prod.fst =
      (ComputeNormMatch H K N1 ClassId F dbg).map Prod.fst := by
  rw [ComputeNormMatch_of_class H K N ClassId F dbg L hc hL,
    ComputeNormMatch_of_class H K N1 ClassId F dbg L1 hc hL1]
  simp only [Except.map]
  rw [iterateProtos_fst_of_same_members F dbg dbg L L1 H.MAX_FLOAT32 0 0 _ _
    (fun p => hperm.mem_iff)]

/-- One more prototype at the end of the list: the best match is the smaller
of the best match of the list and the match of the new prototype. -/
theorem iterateProtos_fst_append (F : FEATURE α) (dbg : Bool) (L : List (PROTOTYPE α))
    (p : PROTOTYPE α) :
    ∀ (B : α) (n : Nat) (Out : List (DebugLine α)),
      (iterateProtos F dbg (L ++ [p]) B n Out).1 =
        if ProtoMatch F p < (iterateProtos F dbg L B n Out).1 then ProtoMatch F p
        else (iterateProtos F dbg L B n Out).1 := by
  induction L with
  | nil => intro B n Out; simp [iterateProtos]
  | cons q L ih =>
    intro B n Out
    simp only [List.cons_append, iterateProtos]
    exact ih _ _ _

end

/-- For `Midpoint > 0` and `Curl > 0` the evidence does not increase with the
distance, on the nonnegative distances. -/
theorem NormEvidenceOf_antitone (H : Host ℝ) (K : Knobs ℝ) (d1 d2 : ℝ)
    (hpow : ∀ x y : ℝ, 0 ≤ x → 0 < y → H.pow x y = x ^ y)
    (hM : 0 < K.NormAdjMidpoint) (hC : 0 < K.NormAdjCurl) (h1 : 0 ≤ d1) (h12 : d1 ≤ d2) :
    NormEvidenceOf H K d2 ≤ NormEvidenceOf H K d1 := by
  have hx1 : 0 ≤ d1 / K.NormAdjMidpoint := div_nonneg h1 (le_of_lt hM)
  have hx12 : d1 / K.NormAdjMidpoint ≤ d2 / K.NormAdjMidpoint :=
    div_le_div_of_nonneg_right h12 (le_of_lt hM)
  have hx2 : 0 ≤ d2 / K.NormAdjMidpoint := le_trans hx1 hx12
  have hp := Real.rpow_le_rpow hx1 hx12 (le_of_lt hC)
  have hp1 : 0 ≤ (d1 / K.NormAdjMidpoint) ^ K.NormAdjCurl := Real.rpow_nonneg hx1 _
  rw [NormEvidenceOf_eq_rpow H K d1 hpow hx1 hC, NormEvidenceOf_eq_rpow H K d2 hpow hx2 hC]
  apply one_div_le_one_div_of_le
  · linarith
  · linarith

/-- C18: for `Midpoint > 0`, `Curl > 0` and a class other than `NO_CLASS`,
when the weights on the two distinguished dimensions are nonnegative for all
prototypes, the rating against the list `L ++ [p]` is at most the rating
against the list `L`. -/
theorem C18_one_more_prototype_does_not_raise_rating (H : Host ℝ) (K : Knobs ℝ)
    (N N1 : NORM_PROTOS ℝ) (ClassId : Int) (F : FEATURE ℝ) (dbg : Bool)
    (L : List (PROTOTYPE ℝ)) (p : PROTOTYPE ℝ)
    (hpow : ∀ x y : ℝ, 0 ≤ x → 0 < y → H.pow x y = x ^ y)
    (hM : 0 < K.NormAdjMidpoint) (hC : 0 < K.NormAdjCurl) (hc : ClassId ≠ H.NO_CLASS)
    (hL : N.ProtosAt ClassId = Except.ok L) (hL1 : N1.ProtosAt ClassId = Except.ok (L ++ [p]))
    (hw : ∀ q ∈ L ++ [p], 0 ≤ q.Weight CharNormY ∧ 0 ≤ q.Weight CharNormRx) :
    ∃ r r1 Out Out1, ComputeNormMatch H K N ClassId F dbg = Except.ok (r, Out) ∧
      ComputeNormMatch H K N1 ClassId F dbg = Except.ok (r1, Out1) ∧ r1 ≤ r := by
  rw [ComputeNormMatch_of_class H K N ClassId F dbg L hc hL,
    ComputeNormMatch_of_class H K N1 ClassId F dbg (L ++ [p]) hc hL1]
  refine ⟨_, _, _, _, rfl, rfl, ?_⟩
  rw [iterateProtos_fst_append]
  have hm : 0 ≤ ProtoMatch F p :=
    ProtoMatch_nonneg F p (hw p (by simp)).1 (hw p (by simp)).2
  by_cases hlt : ProtoMatch F p < (iterateProtos F dbg L H.MAX_FLOAT32 0
      (if dbg = true then [DebugLine.FeatureDump F] else [])).1
  · rw [if_pos hlt]
    have := NormEvidenceOf_antitone H K _ _ hpow hM hC hm (le_of_lt hlt)
    linarith
  · rw [if_neg hlt]

/-- Witness for C18: the default knobs, the feature `Y = 32`, the list of one
prototype with mean 0 and a second prototype with mean 32. -/
theorem C18_second_prototype_does_not_raise_rating :
    ∃ r r1 Out Out1,
      ComputeNormMatch (TessHost Real.rpow) DefaultKnobs
        (TableWith 255 97 [ProtoOf (0 : ℝ) 1 0 0]) 97 (FeatureOf 32 0 0 0) false =
          Except.ok (r, Out) ∧
      ComputeNormMatch (TessHost Real.rpow) DefaultKnobs
        (TableWith 255 97 ([ProtoOf (0 : ℝ) 1 0 0] ++ [ProtoOf 32 1 0 0])) 97
        (FeatureOf 32 0 0 0) false = Except.ok (r1, Out1) ∧ r1 ≤ r :=
  C18_one_more_prototype_does_not_raise_rating (TessHost Real.rpow) DefaultKnobs _ _ 97
    (FeatureOf 32 0 0 0) false [ProtoOf (0 : ℝ) 1 0 0] (ProtoOf 32 1 0 0)
    (fun _ _ _ _ => rfl) (by simp [DefaultKnobs]) (by simp [DefaultKnobs]) (by decide)
    (TableWith_ProtosAt 255 97 _ (by decide)) (TableWith_ProtosAt 255 97 _ (by decide))
    (by
      intro q hq
      simp only [List.mem_append, List.mem_singleton] at hq
      rcases hq with rfl | rfl <;> simp [ProtoOf])

/-- Witness for C15: scenario A with and without the debug flag. -/
theorem C15_debug_flag_keeps_rating_scenario_A :
    (ComputeNormMatch (TessHost Real.rpow) DefaultKnobs
        (TableWith 255 97 [ProtoOf (0 : ℝ) 1 0 0]) 97 (FeatureOf 32 0 0 0) true).map Prod.fst =
      (ComputeNormMatch (TessHost Real.rpow) DefaultKnobs
        (TableWith 255 97 [ProtoOf (0 : ℝ) 1 0 0]) 97 (FeatureOf 32 0 0 0) false).map Prod.fst :=
  (C15_debug_flag_keeps_rating (TessHost Real.rpow) DefaultKnobs
    (TableWith 255 97 [ProtoOf (0 : ℝ) 1 0 0]) 97 (FeatureOf 32 0 0 0)).1

/-- Witness for C17: two prototypes at the same distance 1024 from the
feature, in either order. -/
theorem C17_rating_ignores_order_of_tied_prototypes :
    (ComputeNormMatch (TessHost Real.rpow) DefaultKnobs
        (TableWith 255 97 [ProtoOf (0 : ℝ) 1 0 0, ProtoOf 64 1 0 0]) 97
        (FeatureOf 32 0 0 0) false).map Prod.fst =
      (ComputeNormMatch (TessHost Real.rpow) DefaultKnobs
        (TableWith 255 97 [ProtoOf (64 : ℝ) 1 0 0, ProtoOf 0 1 0 0]) 97
        (FeatureOf 32 0 0 0) false).map Prod.fst :=
  C17_rating_ignores_prototype_order (TessHost Real.rpow) DefaultKnobs _ _ 97
    (FeatureOf 32 0 0 0) false [ProtoOf (0 : ℝ) 1 0 0, ProtoOf 64 1 0 0]
    [ProtoOf (64 : ℝ) 1 0 0, ProtoOf 0 1 0 0] (by decide)
    (TableWith_ProtosAt 255 97 _ (by decide)) (TableWith_ProtosAt 255 97 _ (by decide))
    (List.Perm.swap _ _ _)

/-! ## The loader: what a returned table was read from -/

section
variable {α : Type}

end

/-! ## The loader: which lists a source can fill -/

section
variable {α : Type}

/-- The array index of a class character is within `0 .. MAX_CLASS_ID` when
its code is at most `MAX_CLASS_ID` and either plain `char` is unsigned or the
code is below 128. -/
theorem charIndex_in_range (P : Platform) (c : Char)
    (h : P.charSigned = false ∨ c.toNat < 128) (hmax : c.toNat ≤ P.MAX_CLASS_ID) :
    0 ≤ charIndex P c ∧ charIndex P c ≤ P.MAX_CLASS_ID := by
  have hif : ¬ (P.charSigned = true ∧ 128 ≤ c.toNat) := by
    rintro ⟨hs, hc⟩
    rcases h with h | h
    · rw [h] at hs; exact absurd hs (by decide)
    · omega
  simp only [charIndex, hif, if_false]
  omega

/-- Where plain `char` is signed, a class character with a code in
`128 .. 255` has a negative array index, and the scanning loop indexes the
array out of range at the header of its block. -/
theorem ReadBlocks_of_high_byte (P : Platform) (R : ClustTool α) (fuel : Nat)
    (N : NORM_PROTOS α) (File File1 : List Char) (c : Char) (n : Int)
    (hs : P.charSigned = true) (h128 : 128 ≤ c.toNat) (h256 : c.toNat < 256)
    (hscan : fscanf_1s_d File = Scanned.two c n File1) :
    charIndex P c < 0 ∧ ReadBlocks P R (fuel + 1) N File = Except.error Fault.OutOfBounds := by
  have hneg : charIndex P c < 0 := by
    simp only [charIndex, hs, h128, and_self, if_true]
    omega
  refine ⟨hneg, ?_⟩
  have hat : N.ProtosAt (charIndex P c) = Except.error Fault.OutOfBounds :=
    ProtosAt_of_outside N _ (Or.inl hneg)
  simp only [ReadBlocks, hscan, hat]

end

/-- C19, evaluated where it fails: with a signed plain `char`, the class byte
`0xE9` of the block header of `SourceHighByte` has the array index -23, and
`ReadNormProtos` indexes `Protos` out of range. -/
theorem C19_class_byte_E9_indexes_below_zero :
    fscanf_1s_d ((SourceHighByte.drop 1).drop 3) =
      Scanned.two (Char.ofNat 233) 1 "\n1 2\n".toList ∧
    charIndex TessPlatform (Char.ofNat 233) = -23 ∧
    ¬ (0 ≤ charIndex TessPlatform (Char.ofNat 233) ∧
      charIndex TessPlatform (Char.ofNat 233) ≤ TessPlatform.MAX_CLASS_ID) ∧
    ReadNormProtos TessPlatform ToyClustTool SourceHighByte =
      Except.error Fault.OutOfBounds :=
  ⟨by decide, by decide, by decide, by rfl⟩

/-! ## Where rounding decides

The evaluations below use the embedding with rounding.  `pow` is arbitrary in
them: with the knobs 2 and 3 it is not called. -/

/-- Counterexample to C4 as stated: with the knobs 32 and 2 and the arithmetic
of the C types, the distances 0 and `2 ^ -10` (and the `FLOAT32` nearest to
0.001) all have the evidence exactly 1, since `1 / (1 + 2 ^ -30)` is `1.0` as
a `FLOAT32`.  So `0 < 2 ^ -10`, and the evidence of `2 ^ -10` is not below
that of 0. -/
theorem C4_evidence_is_one_at_small_distances :
    Ieee.Flt.lt (Ieee.Flt.ofInt 0) (Ieee.Flt.ofDyadic 1 (-10)) = true ∧
    (∀ pow, Ieee.NormEvidenceOf (Ieee.TessHost pow) Ieee.DefaultKnobs (Ieee.Flt.ofInt 0) =
      Ieee.Flt.ofInt 1) ∧
    (∀ pow, Ieee.NormEvidenceOf (Ieee.TessHost pow) Ieee.DefaultKnobs
      (Ieee.Flt.ofDyadic 1 (-10)) = Ieee.Flt.ofInt 1) ∧
    (∀ pow, Ieee.NormEvidenceOf (Ieee.TessHost pow) Ieee.DefaultKnobs
      (Ieee.binary32.round 1 1000 0) = Ieee.Flt.ofInt 1) ∧
    (∀ pow, Ieee.Flt.lt
      (Ieee.NormEvidenceOf (Ieee.TessHost pow) Ieee.DefaultKnobs (Ieee.Flt.ofDyadic 1 (-10)))
      (Ieee.NormEvidenceOf (Ieee.TessHost pow) Ieee.DefaultKnobs (Ieee.Flt.ofInt 0)) = false) :=
  ⟨by decide, fun _ => by rfl, fun _ => by rfl, fun _ => by rfl, fun _ => by rfl⟩

/-- Counterexample to C5 as stated, with the arithmetic of the C types.
With the default knobs and nonnegative weights, a prototype of mean 0 and
weight 1 on `Y` and the feature `Y = 512` give the distance `2 ^ 18`, the
evidence `2 ^ -26` and the rating exactly 1; a class without prototypes gives
the rating exactly 1 as well; and 1 is not below 1.  With the knobs 32 and 3,
a prototype of mean 0 and weight -1 on `Y` and the feature `Y = 8` give the
distance -64 and the rating `9586981 * 2 ^ -23` (the `FLOAT32` nearest to
8/7), which is above 1. -/
theorem C5_rating_is_one_or_more :
    (∀ pow, Ieee.ComputeNormMatch (Ieee.TessHost pow) Ieee.DefaultKnobs
        (TableWith 255 97 [Ieee.ProtoOf 0 1 0 0]) 97 (Ieee.FeatureOf 512 0 0 0) false =
      Except.ok (Ieee.Flt.ofInt 1, [])) ∧
    (∀ pow, Ieee.NormEvidenceOf (Ieee.TessHost pow) Ieee.DefaultKnobs
        (Ieee.Flt.ofDyadic 1 18) = Ieee.Flt.ofDyadic 1 (-26)) ∧
    (∀ pow, Ieee.ComputeNormMatch (Ieee.TessHost pow) Ieee.DefaultKnobs
        (TableWith 255 97 []) 97 (Ieee.FeatureOf 32 0 0 0) false =
      Except.ok (Ieee.Flt.ofInt 1, [])) ∧
    Ieee.Flt.lt (Ieee.Flt.ofInt 1) (Ieee.Flt.ofInt 1) = false ∧
    (∀ pow, Ieee.ComputeNormMatch (Ieee.TessHost pow) ⟨Ieee.Flt.ofInt 32, Ieee.Flt.ofInt 3⟩
        (TableWith 255 97 [Ieee.ProtoOf 0 (-1) 0 0]) 97 (Ieee.FeatureOf 8 0 0 0) false =
      Except.ok (Ieee.Flt.ofDyadic 9586981 (-23), [])) ∧
    Ieee.Flt.lt (Ieee.Flt.ofInt 1) (Ieee.Flt.ofDyadic 9586981 (-23)) = true :=
  ⟨fun _ => by rfl, fun _ => by rfl, fun _ => by rfl, by decide, fun _ => by rfl, by decide⟩

/-- Counterexample to C14 as stated, with the arithmetic of the C types and
the default knobs: the rating is exactly 1 at the distance `2 ^ 18`; at
`MAX_FLOAT32`, the largest finite distance, the square overflows, the
evidence is exactly 0 and the rating exactly 1; and whatever the finite number
`D = m * 2 ^ e` is, there is a `d ≥ D` (the infinite one, which `BestMatch`
takes when a product overflows) with evidence 0 and rating 1, which is not
below 1. -/
theorem C14_rating_is_one_at_large_distances :
    (∀ pow, Ieee.Rating (Ieee.TessHost pow) Ieee.DefaultKnobs (Ieee.Flt.ofDyadic 1 18) =
      Ieee.Flt.ofInt 1) ∧
    (∀ pow, Ieee.NormEvidenceOf (Ieee.TessHost pow) Ieee.DefaultKnobs
        (Ieee.TessHost pow).MAX_FLOAT32 = Ieee.Flt.ofInt 0 ∧
      Ieee.Rating (Ieee.TessHost pow) Ieee.DefaultKnobs (Ieee.TessHost pow).MAX_FLOAT32 =
        Ieee.Flt.ofInt 1) ∧
    (∀ pow (m e : Int), ∃ d, Ieee.Flt.le (Ieee.Flt.fin m e) d = true ∧
      Ieee.NormEvidenceOf (Ieee.TessHost pow) Ieee.DefaultKnobs d = Ieee.Flt.ofInt 0 ∧
      Ieee.Rating (Ieee.TessHost pow) Ieee.DefaultKnobs d = Ieee.Flt.ofInt 1 ∧
      Ieee.Flt.lt (Ieee.Rating (Ieee.TessHost pow) Ieee.DefaultKnobs d) (Ieee.Flt.ofInt 1) =
        false) :=
  ⟨fun _ => by rfl, fun _ => ⟨by rfl, by rfl⟩, fun _ _ _ =>
    ⟨Ieee.Flt.inf false, by rfl, by rfl, by rfl, by rfl⟩⟩

end NormMatch
